import Mathlib

/-!
Verification development for the gel-invent inventory backend.

We give a shallow embedding of the core stock-ledger logic:

* `app/utils/movement_reasons.py` — reason normalization and sign validation;
* `app/utils/expiry.py`          — per-batch balances and the expiry write-off engine;
* `app/routers/sales.py`         — sale creation (idempotency, availability check,
                                   FIFO-by-expiry batch allocation, creditor integration)
                                   and sale deletion (full reversal);
* `app/routers/returns.py`       — sale returns and the cumulative return bound.

Modelling conventions:

* SQL `Numeric` quantities and amounts (Python `Decimal`) are modelled as `ℚ`
  (the code only adds, subtracts, negates and compares them, so the embedding
  into `ℚ` is exact).
* SQL `Date` values are modelled as `Int` day numbers; nullable columns are
  `Option`.
* Row `id`s and `created_at` timestamps are modelled by one monotone counter
  `DB.next_id`: every inserted row consumes one tick, so `created_at` order is
  insertion order, as in the running system.
* A database session is explicit state passing: each endpoint takes the
  committed database and returns `Except` of an error (HTTPException; the
  transaction is rolled back, so the committed state is unchanged) or of a
  result together with the newly committed database.
* Incidental columns that no modelled code path reads (free-text notes,
  creditor phone/email, pack sizes) are omitted from the row structures.
* SQL `GROUP BY` returns groups in an unspecified order; we fix the order to
  `List.dedup` of the key list, one deterministic refinement of the SQL
  semantics.  No verified property depends on the group order.
-/

namespace GelInvent

/-- `Decimal` quantities and money amounts. -/
abbrev Qty := ℚ

/-- Dates as integer day numbers (`datetime.date.toordinal`-style). -/
abbrev Day := Int

/-- A row of the `stock_movements` table, with the columns the modelled code
reads and writes (`app/models.py` `StockMovement` plus the `sale_id`,
`unit_cost_price`, `unit_selling_price` columns used throughout
`app/routers/sales.py`). -/
structure StockMovement where
  user_id : Nat
  branch_id : Nat
  product_id : Nat
  sale_id : Option Nat := none
  change : Qty
  reason : String
  batch_number : Option String := none
  expiry_date : Option Day := none
  unit_cost_price : Option Qty := none
  unit_selling_price : Option Qty := none
  location : Option String := some "Main Store"
  created_at : Nat
deriving DecidableEq

/-- A row of the `products` table (only the columns the sales code reads). -/
structure Product where
  id : Nat
  user_id : Nat
  branch_id : Nat
  name : String
  cost_price : Option Qty := none
deriving DecidableEq

/-- A row of the `sales` table. -/
structure Sale where
  id : Nat
  user_id : Nat
  branch_id : Nat
  product_id : Nat
  quantity : Qty
  unit_price : Qty
  total_price : Qty
  customer_name : Option String := none
  payment_method : String := "cash"
  amount_paid : Option Qty := none
  client_sale_id : Option String := none
deriving DecidableEq

/-- A row of the `creditors` table. -/
structure Creditor where
  id : Nat
  user_id : Nat
  branch_id : Nat
  name : String
  total_debt : Qty
deriving DecidableEq

/-- A row of the `credit_transactions` table. -/
structure CreditTransaction where
  id : Nat
  user_id : Nat
  branch_id : Nat
  creditor_id : Nat
  sale_id : Option Nat := none
  amount : Qty
  transaction_type : String
deriving DecidableEq

/-- A row of the `sale_returns` table. -/
structure SaleReturn where
  id : Nat
  user_id : Nat
  branch_id : Nat
  sale_id : Nat
  product_id : Nat
  quantity_returned : Qty
  refund_amount : Qty
  refund_method : String
  restock : Bool
deriving DecidableEq

/-- The committed database state. Rows are listed in insertion order. -/
structure DB where
  movements : List StockMovement := []
  products : List Product := []
  sales : List Sale := []
  creditors : List Creditor := []
  credit_transactions : List CreditTransaction := []
  sale_returns : List SaleReturn := []
  next_id : Nat := 1
deriving DecidableEq

/-- Python truthiness of an optional string (`None` and `""` are falsy). -/
def strTruthy : Option String → Bool
  | none => false
  | some s => !s.isEmpty

/-- Python truthiness of an optional `Decimal` (`None` and `0` are falsy). -/
def qtyTruthy : Option Qty → Bool
  | none => false
  | some q => q != 0

/-- Python `x or "Main Store"` on an optional location string. -/
def locOrMain : Option String → String
  | none => "Main Store"
  | some s => if s.isEmpty then "Main Store" else s

/-! ### `app/utils/movement_reasons.py` -/

namespace MovementReasons

/-- `_norm`: trim and case-fold, `None` becoming `""`. -/
def norm (reason : Option String) : String :=
  ((reason.getD "").trim).toLower

/-- `RULES.positive_only`. -/
def positive_only : List String :=
  ["initial stock", "new stock", "restock", "stock transfer in"]

/-- `RULES.negative_only`. -/
def negative_only : List String :=
  ["expired", "damaged", "lost", "lost/stolen", "write-off",
   "spoiled", "destroyed", "stock transfer out"]

/-- `RULES.adjustment`. -/
def adjustment : List String :=
  ["stock count", "correction", "adjustment", "inventory correction"]

/-- `is_return`: normalized reason starts with `"returned"`. -/
def is_return (reason : Option String) : Bool :=
  (norm reason).startsWith "returned"

/-- `is_sale`. -/
def is_sale (reason : Option String) : Bool :=
  norm reason == "sale"

/-- `is_adjustment`. -/
def is_adjustment (reason : Option String) : Bool :=
  adjustment.contains (norm reason)

/-- The raw reason as Python would interpolate it into an error message
(`f"{reason} ..."`; `None` prints as `"None"`). -/
def rawReason : Option String → String
  | none => "None"
  | some s => s

/-- `validate_reason_and_change`: `none` means valid, `some msg` is the
validation error message. -/
def validate_reason_and_change (reason : Option String) (change : Qty) :
    Option String :=
  let r := norm reason
  if r.isEmpty then
    some "Reason is required"
  else if (r.startsWith "returned") && change ≤ 0 then
    some "Returned must be a positive quantity"
  else if positive_only.contains r && change ≤ 0 then
    some (rawReason reason ++ " must be a positive quantity")
  else if negative_only.contains r && change ≥ 0 then
    some (rawReason reason ++ " must be a negative quantity")
  else
    none

/-- `classify_movement`. -/
def classify_movement (reason : Option String) (change : Qty) : String :=
  if is_sale reason then "sales"
  else if is_adjustment reason then "adjustments"
  else if is_return reason then "stock_in"
  else if 0 < change then "stock_in" else "stock_out"

end MovementReasons

/-! ### Shared queries over the movement ledger -/

/-- Movements of one product in one branch visible to a tenant
(the recurring `WHERE product_id = … AND branch_id = … AND user_id IN (…)`). -/
def DB.productMovements (db : DB) (uids : List Nat) (branch pid : Nat) :
    List StockMovement :=
  db.movements.filter fun m =>
    m.product_id == pid && m.branch_id == branch && uids.contains m.user_id

/-- `available_stock`: `COALESCE(SUM(change), 0)` over the product's movements
(`app/routers/sales.py:66`). -/
def available_stock (db : DB) (uids : List Nat) (branch pid : Nat) : Qty :=
  ((db.productMovements uids branch pid).map (·.change)).sum

/-- The first row of `ORDER BY created_at DESC` — an element with the greatest
`created_at` (ties broken towards the earlier list element, one deterministic
refinement of the unspecified SQL tie order). -/
def latestBy : List StockMovement → Option StockMovement :=
  List.foldl
    (fun acc m =>
      match acc with
      | none => some m
      | some a => if a.created_at < m.created_at then some m else some a)
    none

/-- The latest known `unit_cost_price` among positive (stock-in) movements of
one batch.  Both call sites (`sales.py:128`, `expiry.py:131`) return `None`
alike when no such row exists and when the row's cost column is `NULL`, which
`Option.bind` collapses the same way. -/
def latest_positive_unit_cost (db : DB) (uids : List Nat) (branch pid : Nat)
    (bn : String) : Option Qty :=
  (latestBy (db.movements.filter fun m =>
      m.product_id == pid && m.branch_id == branch && uids.contains m.user_id &&
        m.batch_number == some bn && decide (0 < m.change))).bind
    (·.unit_cost_price)

/-! ### `app/utils/expiry.py` -/

/-- `BatchBalance` (the dataclass in `app/utils/expiry.py`), with `first_seen`
as the minimum insertion tick of the group. -/
structure BatchBalance where
  batch_number : String
  expiry_date : Option Day
  location : Option String
  balance : Qty
  first_seen : Option Nat
deriving DecidableEq

/-- The `GROUP BY` key of `get_batch_balances`. -/
def bbKey (m : StockMovement) : Option String × Option Day × Option String :=
  (m.batch_number, m.expiry_date, m.location)

/-- `get_batch_balances`: per-`(batch_number, expiry_date, location)` sums of
movement deltas for one product, over movements that carry a batch number
(optionally also requiring a non-null expiry date); groups whose batch number
is the empty string are skipped (`if not batch_number: continue`). -/
def get_batch_balances (db : DB) (uids : List Nat) (branch pid : Nat)
    (include_null_expiry : Bool) : List BatchBalance :=
  let rows := db.movements.filter fun m =>
    m.product_id == pid && m.branch_id == branch && uids.contains m.user_id &&
      m.batch_number.isSome && (include_null_expiry || m.expiry_date.isSome)
  ((rows.map bbKey).dedup).filterMap fun k =>
    match k with
    | (some bn, exp, loc) =>
      if bn.isEmpty then none
      else
        let grp := rows.filter fun m => bbKey m == k
        some { batch_number := bn, expiry_date := exp, location := loc,
               balance := (grp.map (·.change)).sum,
               first_seen := (grp.map (·.created_at)).min? }
    | (none, _, _) => none

/-- Row filter of the write-off query: scoped to the branch and tenant, batch
number present, expiry date present and strictly before today, optionally
restricted to one product. -/
def expiredRowFilter (uids : List Nat) (branch : Nat) (pid? : Option Nat)
    (today : Day) (m : StockMovement) : Bool :=
  m.branch_id == branch && uids.contains m.user_id && m.batch_number.isSome &&
    (match m.expiry_date with | some e => decide (e < today) | none => false) &&
    (match pid? with | some pid => m.product_id == pid | none => true)

/-- The `GROUP BY` key of `writeoff_expired_batches`. -/
def woKey (m : StockMovement) :
    Nat × Option String × Option Day × Option String :=
  (m.product_id, m.batch_number, m.expiry_date, m.location)

/-- The grouped write-off candidates: each distinct key together with its
summed balance, kept only when the balance is strictly positive
(`HAVING SUM(change) > 0`; the Python re-check `if bal <= 0: continue` is
subsumed).  The batch-number component is returned unwrapped: every grouped
row carries one (`batch_number IS NOT NULL` is in the row filter).
The summed delta of one group key is `woBalance`. -/
def woBalance (rows : List StockMovement)
    (k : Nat × Option String × Option Day × Option String) : Qty :=
  ((rows.filter fun m => woKey m == k).map (·.change)).sum

/-- One `GROUP BY` key of the write-off query, turned into a group entry when
its balance is strictly positive. -/
def groupOfKey (rows : List StockMovement)
    (k : Nat × Option String × Option Day × Option String) :
    Option ((Nat × String × Option Day × Option String) × Qty) :=
  match k with
  | (pid, some bn, exp, loc) =>
    if 0 < woBalance rows k then some ((pid, bn, exp, loc), woBalance rows k)
    else none
  | (_, none, _, _) => none

def expiredPositiveGroups (db : DB) (uids : List Nat) (branch : Nat)
    (pid? : Option Nat) (today : Day) :
    List ((Nat × String × Option Day × Option String) × Qty) :=
  let rows := db.movements.filter (expiredRowFilter uids branch pid? today)
  ((rows.map woKey).dedup).filterMap (groupOfKey rows)

/-- The compensating movement appended for one expired group.  The unit-cost
lookup runs against the pre-write-off session state `db` (the session does not
autoflush, and the movements appended by this run are negative, so the
`change > 0` filter excludes them either way). -/
def mkExpiredMovement (db : DB) (actor : Nat) (uids : List Nat) (branch : Nat)
    (pid : Nat) (bn : String) (exp : Option Day) (loc : Option String)
    (bal : Qty) (seq : Nat) : StockMovement :=
  { user_id := actor, branch_id := branch, product_id := pid,
    change := -bal, reason := "Expired", batch_number := some bn,
    expiry_date := exp,
    unit_cost_price := latest_positive_unit_cost db uids branch pid bn,
    location := some (locOrMain loc), created_at := seq }

/-- The movements the write-off loop appends, one per positive expired group,
in group order, with consecutive insertion ticks starting at `db.next_id`. -/
def writeoffMovements (db : DB) (actor : Nat) (uids : List Nat)
    (branch : Nat) (pid? : Option Nat) (today : Day) : List StockMovement :=
  ((expiredPositiveGroups db uids branch pid? today).enum).map fun ikb =>
    mkExpiredMovement db actor uids branch ikb.2.1.1 ikb.2.1.2.1 ikb.2.1.2.2.1
      ikb.2.1.2.2.2 ikb.2.2 (db.next_id + ikb.1)

/-- `writeoff_expired_batches`: append one compensating movement per expired
group with positive balance; returns the count of created movements and the
new state. -/
def writeoff_expired_batches (db : DB) (actor : Nat) (uids : List Nat)
    (branch : Nat) (pid? : Option Nat) (today : Day) : Nat × DB :=
  let ms := writeoffMovements db actor uids branch pid? today
  (ms.length,
   { db with movements := db.movements ++ ms, next_id := db.next_id + ms.length })

/-! ### `app/routers/sales.py` — sale creation -/

/-- The request payload (`SaleCreate` in `app/schemas.py`, the fields the
modelled logic reads). -/
structure SaleCreate where
  product_id : Nat
  quantity : Qty
  unit_price : Qty
  total_price : Qty
  customer_name : Option String := none
  payment_method : String := "cash"
  client_sale_id : Option String := none
  amount_paid : Option Qty := none
deriving DecidableEq

/-- The `HTTPException`s `create_sale` can raise. -/
inductive SaleError where
  | productNotFound
  | insufficientStock (available : Qty)
  | amountPaidNotBelowTotal
deriving DecidableEq

/-- The idempotency lookup: only performed when `client_sale_id` is truthy. -/
def find_existing_sale (p : SaleCreate) (uids : List Nat) (branch : Nat)
    (db : DB) : Option Sale :=
  if strTruthy p.client_sale_id then
    db.sales.find? fun s =>
      s.branch_id == branch && uids.contains s.user_id &&
        s.client_sale_id == p.client_sale_id
  else none

/-- The product lookup of `create_sale`. -/
def find_product (p : SaleCreate) (uids : List Nat) (branch : Nat) (db : DB) :
    Option Product :=
  db.products.find? fun pr =>
    pr.id == p.product_id && uids.contains pr.user_id && pr.branch_id == branch

/-- `datetime.date.max.toordinal()`, the sort fallback `expiry or date.max`. -/
def dateMax : Day := 3652059

/-- The FIFO sort key comparison: ascending by `(1 if no expiry else 0,
expiry or date.max)`; null-expiry batches sort last. -/
def fifoLe (a b : BatchBalance) : Bool :=
  let fa : Nat := if a.expiry_date.isNone then 1 else 0
  let fb : Nat := if b.expiry_date.isNone then 1 else 0
  fa < fb ||
    (fa == fb && decide (a.expiry_date.getD dateMax ≤ b.expiry_date.getD dateMax))

/-- The batches `create_sale` allocates from: positive balance, not already
expired, sorted FIFO-by-expiry (Python's stable `list.sort`, modelled by the
stable `List.mergeSort`). -/
def available_batches (db : DB) (uids : List Nat) (branch pid : Nat)
    (today : Day) : List BatchBalance :=
  ((get_batch_balances db uids branch pid true).filter fun b =>
      decide (0 < b.balance) &&
        (match b.expiry_date with
         | none => true
         | some e => decide (today ≤ e))).mergeSort fifoLe

/-- The consumption loop: walk the sorted batches, taking
`min(batchBalance, remaining)` from each until `remaining` reaches zero.
Returns the `(batch, quantityTaken)` pairs and the final remainder. -/
def allocateLoop : List BatchBalance → Qty → List (BatchBalance × Qty) × Qty
  | [], remaining => ([], remaining)
  | b :: bs, remaining =>
    if remaining ≤ 0 then ([], remaining)
    else
      let take := if b.balance ≤ remaining then b.balance else remaining
      if take ≤ 0 then allocateLoop bs remaining
      else
        let rest := allocateLoop bs (remaining - take)
        ((b, take) :: rest.1, rest.2)

/-- One entry of the `deducted_batches` list returned to the client. -/
structure DeductedBatch where
  batch_number : Option String
  expiry_date : Option Day
  quantity : Qty
  location : String
deriving DecidableEq

/-- One iteration of the deduction loop: append the negative `Sale` movement
for one consumed batch (cost looked up in the pre-deduction snapshot `db`)
and record the client-facing deduction entry. -/
def deductStep (uid : Nat) (uids : List Nat) (branch : Nat) (product : Product)
    (p : SaleCreate) (sid : Nat) (db : DB)
    (acc : DB × List DeductedBatch) (bt : BatchBalance × Qty) :
    DB × List DeductedBatch :=
  let d := acc.1
  let b := bt.1
  let mv : StockMovement := {
    user_id := uid, branch_id := branch, product_id := p.product_id,
    sale_id := some sid, change := -bt.2, reason := "Sale",
    batch_number := some b.batch_number, expiry_date := b.expiry_date,
    unit_cost_price :=
      if b.batch_number.isEmpty then product.cost_price
      else latest_positive_unit_cost db uids branch p.product_id b.batch_number,
    unit_selling_price := some p.unit_price,
    location := some (locOrMain b.location), created_at := d.next_id }
  ({ d with movements := d.movements ++ [mv], next_id := d.next_id + 1 },
   acc.2 ++ [⟨some b.batch_number, b.expiry_date, bt.2, locOrMain b.location⟩])

/-- The stock-deduction stage of `create_sale`: one negative `Sale` movement
per consumed batch, plus one unbatched remainder movement when batches run
out before `remaining` does. -/
def deduct_stock (uid : Nat) (uids : List Nat) (branch : Nat)
    (product : Product) (p : SaleCreate) (sid : Nat) (today : Day) (db : DB) :
    DB × List DeductedBatch :=
  let alloc := allocateLoop (available_batches db uids branch p.product_id today)
    p.quantity
  let step := alloc.1.foldl (deductStep uid uids branch product p sid db) (db, [])
  if 0 < alloc.2 then
    let d := step.1
    let mv : StockMovement := {
      user_id := uid, branch_id := branch, product_id := p.product_id,
      sale_id := some sid, change := -alloc.2, reason := "Sale",
      unit_cost_price := product.cost_price,
      unit_selling_price := some p.unit_price,
      location := some "Main Store", created_at := d.next_id }
    ({ d with movements := d.movements ++ [mv], next_id := d.next_id + 1 },
     step.2 ++ [⟨none, none, alloc.2, "Main Store"⟩])
  else step

/-- Appending the debt transaction for `credit_amount`, then — only for
`credit` sales with a positive upfront `amount_paid` — decrementing the
creditor and appending the payment transaction. -/
def after_creditor (p : SaleCreate) (sid uid : Nat) (branch : Nat) (db : DB)
    (cid : Nat) (credit_amount : Qty) : DB :=
  let debtTx : CreditTransaction :=
    ⟨db.next_id, uid, branch, cid, some sid, credit_amount, "debt"⟩
  let db1 := { db with
    credit_transactions := db.credit_transactions ++ [debtTx],
    next_id := db.next_id + 1 }
  -- `payload.amount_paid and payload.amount_paid > 0` ⟺ 0 < amount_paid.
  if decide (0 < p.amount_paid.getD 0) && (p.payment_method == "credit") then
    let a := p.amount_paid.getD 0
    let db2 := { db1 with creditors := db1.creditors.map fun (c : Creditor) =>
      if c.id == cid then { c with total_debt := c.total_debt - a } else c }
    let payTx : CreditTransaction :=
      ⟨db2.next_id, uid, branch, cid, some sid, a, "payment"⟩
    { db2 with
      credit_transactions := db2.credit_transactions ++ [payTx]
      next_id := db2.next_id + 1 }
  else db1

/-- The creditor block: runs only when `credit_amount > 0` and a truthy
customer name was given; finds or creates the creditor by name within the
branch and records the transactions.  (Phone extraction from the notes only
fills an unread `phone` column and is omitted.) -/
def record_credit (p : SaleCreate) (sid uid : Nat) (uids : List Nat)
    (branch : Nat) (db : DB) (credit_amount : Qty) : DB :=
  if decide (0 < credit_amount) && strTruthy p.customer_name then
    let name := p.customer_name.getD ""
    match db.creditors.find? fun c =>
        c.name == name && uids.contains c.user_id && c.branch_id == branch with
    | none =>
      let cid := db.next_id
      let db1 := { db with
        creditors := db.creditors ++ [⟨cid, uid, branch, name, credit_amount⟩],
        next_id := db.next_id + 1 }
      after_creditor p sid uid branch db1 cid credit_amount
    | some c =>
      let db1 := { db with creditors := db.creditors.map fun (c0 : Creditor) =>
        if c0.id == c.id then { c0 with total_debt := c0.total_debt + credit_amount }
        else c0 }
      after_creditor p sid uid branch db1 c.id credit_amount
  else db

/-- The credit-amount computation and partial-payment validation
(`sales.py:218-306`): full `total_price` for `credit`; `total − amount_paid`
for `partial` with a truthy `amount_paid`, rejected when that difference is
not positive; zero otherwise. -/
def credit_stage (p : SaleCreate) (sid uid : Nat) (uids : List Nat)
    (branch : Nat) (db : DB) : Except SaleError DB :=
  if p.payment_method == "credit" then
    .ok (record_credit p sid uid uids branch db p.total_price)
  else if p.payment_method == "partial" && qtyTruthy p.amount_paid then
    let ca := p.total_price - p.amount_paid.getD 0
    if ca ≤ 0 then .error .amountPaidNotBelowTotal
    else .ok (record_credit p sid uid uids branch db ca)
  else .ok db

/-- The `models.Sale` row `create_sale` inserts (id taken from the counter). -/
def newSaleRow (p : SaleCreate) (uid branch sid : Nat) : Sale :=
  { id := sid, user_id := uid, branch_id := branch,
    product_id := p.product_id, quantity := p.quantity,
    unit_price := p.unit_price, total_price := p.total_price,
    customer_name := p.customer_name, payment_method := p.payment_method,
    amount_paid := p.amount_paid, client_sale_id := p.client_sale_id }

/-- Inserting the sale row (`db.add(sale); db.flush()`). -/
def afterSaleInsert (p : SaleCreate) (uid branch : Nat) (dbW : DB) : DB :=
  { dbW with
    sales := dbW.sales ++ [newSaleRow p uid branch dbW.next_id]
    next_id := dbW.next_id + 1 }

/-- `create_sale` (`app/routers/sales.py:19-313`).  The expiry write-off runs
first inside the request's transaction; an idempotent replay returns the
existing sale without committing, and a raised `HTTPException` aborts the
transaction, so in both of those cases the committed state stays `db0`.  On
success the committed state includes the write-off movements, the sale row,
its deduction movements and any creditor-ledger rows. -/
def create_sale (p : SaleCreate) (uid : Nat) (uids : List Nat) (branch : Nat)
    (today : Day) (db0 : DB) : Except SaleError (Nat × List DeductedBatch × DB) :=
  let dbW := (writeoff_expired_batches db0 uid uids branch (some p.product_id) today).2
  match find_existing_sale p uids branch dbW with
  | some s => .ok (s.id, [], db0)
  | none =>
    match find_product p uids branch dbW with
    | none => .error .productNotFound
    | some product =>
      let avail := available_stock dbW uids branch p.product_id
      if avail < p.quantity then .error (.insufficientStock avail)
      else
        let sid := dbW.next_id
        let db1 := afterSaleInsert p uid branch dbW
        let dd := deduct_stock uid uids branch product p sid today db1
        match credit_stage p sid uid uids branch dd.1 with
        | .error e => .error e
        | .ok db2 => .ok (sid, dd.2, db2)

/-- The committed database after a `create_sale` request: the new state on
success, the unchanged input state when the request failed or replayed. -/
def create_sale_state (p : SaleCreate) (uid : Nat) (uids : List Nat)
    (branch : Nat) (today : Day) (db0 : DB) : DB :=
  match create_sale p uid uids branch today db0 with
  | .ok r => r.2.2
  | .error _ => db0

/-! ### `app/routers/sales.py` — sale deletion (full reversal) -/

/-- One iteration of the credit-reversal loop of `delete_sale`: look the
creditor up by primary key and adjust its balance by the inverse of the
transaction (debt amounts subtracted, payment amounts added back); the
transaction row itself is deleted afterwards. -/
def reverseTxnStep (cs : List Creditor) (t : CreditTransaction) : List Creditor :=
  cs.map fun (c : Creditor) =>
    if c.id == t.creditor_id then
      { c with total_debt :=
          if t.transaction_type == "debt" then c.total_debt - t.amount
          else c.total_debt + t.amount }
    else c

/-- `delete_sale` (`app/routers/sales.py:396-462`).  `.error ()` is the 404. -/
def delete_sale (sale_id : Nat) (uid : Nat) (uids : List Nat) (branch : Nat)
    (db : DB) : Except Unit DB :=
  match db.sales.find? fun s =>
      s.id == sale_id && uids.contains s.user_id && s.branch_id == branch with
  | none => .error ()
  | some sale =>
    let isLinked : StockMovement → Bool := fun m =>
      m.sale_id == some sale_id && m.branch_id == branch &&
        uids.contains m.user_id
    let sale_movements := db.movements.filter isLinked
    let db1 :=
      if sale_movements.isEmpty then
        let mv : StockMovement := {
          user_id := uid, branch_id := branch,
          product_id := sale.product_id, change := sale.quantity,
          reason := "Sale Reversal", location := some "Main Store",
          created_at := db.next_id }
        { db with
          movements := db.movements ++ [mv]
          next_id := db.next_id + 1 }
      else { db with movements := db.movements.filter fun m => !(isLinked m) }
    let db2 :=
      if sale.payment_method == "credit" || sale.payment_method == "partial" then
        let isTx : CreditTransaction → Bool := fun t =>
          t.sale_id == some sale_id && uids.contains t.user_id &&
            t.branch_id == branch
        let txns := db1.credit_transactions.filter isTx
        let creditors' := txns.foldl reverseTxnStep db1.creditors
        { db1 with
          creditors := creditors'
          credit_transactions := db1.credit_transactions.filter fun t => !(isTx t) }
      else db1
    .ok { db2 with sales := db2.sales.filter fun s => !(s.id == sale.id) }

/-! ### `app/routers/returns.py` -/

/-- The request payload (`SaleReturnCreate` in `app/schemas.py`). -/
structure ReturnCreate where
  sale_id : Nat
  quantity_returned : Qty
  refund_amount : Qty
  refund_method : String := "cash"
  restock : Bool := true
deriving DecidableEq

/-- The `HTTPException`s `create_return` can raise. -/
inductive ReturnError where
  | saleNotFound
  | exceedsReturnable (remaining already : Qty)
deriving DecidableEq

/-- Sum of quantities of all prior returns for a sale (this query filters by
sale and tenant only, with no branch condition — as in the source). -/
def already_returned (db : DB) (uids : List Nat) (sale_id : Nat) : Qty :=
  ((db.sale_returns.filter fun r =>
      r.sale_id == sale_id && uids.contains r.user_id).map
    (·.quantity_returned)).sum

/-- `create_return` (`app/routers/returns.py:24-144`). -/
def create_return (p : ReturnCreate) (uid : Nat) (uids : List Nat)
    (branch : Nat) (db : DB) : Except ReturnError (Nat × DB) :=
  match db.sales.find? fun s =>
      s.id == p.sale_id && uids.contains s.user_id && s.branch_id == branch with
  | none => .error .saleNotFound
  | some sale =>
    let already := already_returned db uids p.sale_id
    let remaining := sale.quantity - already
    if remaining < p.quantity_returned then
      .error (.exceedsReturnable remaining already)
    else
      let rid := db.next_id
      let ret : SaleReturn := {
        id := rid, user_id := uid, branch_id := branch,
        sale_id := p.sale_id, product_id := sale.product_id,
        quantity_returned := p.quantity_returned,
        refund_amount := p.refund_amount, refund_method := p.refund_method,
        restock := p.restock }
      let db1 := { db with
        sale_returns := db.sale_returns ++ [ret]
        next_id := db.next_id + 1 }
      let db2 :=
        if p.restock then
          let mv : StockMovement := {
            user_id := uid, branch_id := branch,
            product_id := sale.product_id, sale_id := some sale.id,
            change := p.quantity_returned, reason := "Customer Return",
            location := some "Main Store", created_at := db1.next_id }
          { db1 with
            movements := db1.movements ++ [mv]
            next_id := db1.next_id + 1 }
        else db1
      let db3 :=
        if sale.payment_method == "credit" &&
            p.refund_method == "credit_to_account" then
          match db2.credit_transactions.find? fun t =>
              t.sale_id == some sale.id && t.transaction_type == "debt" with
          | none => db2
          | some tx =>
            match db2.creditors.find? fun c => c.id == tx.creditor_id with
            | none => db2
            | some cr =>
              let payTx : CreditTransaction :=
                ⟨db2.next_id, uid, branch, cr.id, some sale.id,
                 p.refund_amount, "payment"⟩
              { db2 with
                credit_transactions := db2.credit_transactions ++ [payTx],
                creditors := db2.creditors.map fun (c : Creditor) =>
                  if c.id == cr.id then
                    { c with total_debt := max 0 (c.total_debt - p.refund_amount) }
                  else c,
                next_id := db2.next_id + 1 }
        else db2
      .ok (rid, db3)

/-- The committed database after a `create_return` request (rollback on
rejection). -/
def create_return_state (p : ReturnCreate) (uid : Nat) (uids : List Nat)
    (branch : Nat) (db : DB) : DB :=
  match create_return p uid uids branch db with
  | .ok r => r.2
  | .error _ => db

/-! ### Derived observations used in statements -/

/-- The deduction list returned by a successful `create_sale` request
(empty on replay or failure). -/
def create_sale_deductions (p : SaleCreate) (uid : Nat) (uids : List Nat)
    (branch : Nat) (today : Day) (db0 : DB) : List DeductedBatch :=
  match create_sale p uid uids branch today db0 with
  | .ok r => r.2.1
  | .error _ => []

/-- The credit amount `create_sale` computes for a request: the full total
for `credit`, the unpaid portion for `partial` with a truthy `amount_paid`,
zero otherwise. -/
def credit_amount_of (p : SaleCreate) : Qty :=
  if p.payment_method == "credit" then p.total_price
  else if p.payment_method == "partial" && qtyTruthy p.amount_paid then
    p.total_price - p.amount_paid.getD 0
  else 0

/-- Total of all creditor balances — the aggregate creditor-ledger exposure. -/
def creditorDebtSum (db : DB) : Qty :=
  (db.creditors.map (·.total_debt)).sum

/-- The forward effect of one credit transaction on the creditor table, as
`create_sale` applies it: a `debt` row adds its amount to the creditor's
balance, a `payment` row subtracts it.  Used to state what a pre-reversal
state looks like. -/
def applyTxnForward (cs : List Creditor) (t : CreditTransaction) : List Creditor :=
  cs.map fun (c : Creditor) =>
    if c.id == t.creditor_id then
      { c with total_debt :=
          if t.transaction_type == "debt" then c.total_debt + t.amount
          else c.total_debt - t.amount }
    else c

/-- The grouping key a positive expired group was built from. -/
def keyOfGroup (kb : (Nat × String × Option Day × Option String) × Qty) :
    Nat × Option String × Option Day × Option String :=
  (kb.1.1, some kb.1.2.1, kb.1.2.2.1, kb.1.2.2.2)

/-- The grouping key of the compensating movement written for a group — its
location component passes through `location or "Main Store"`. -/
def keyNorm (kb : (Nat × String × Option Day × Option String) × Qty) :
    Nat × Option String × Option Day × Option String :=
  (kb.1.1, some kb.1.2.1, kb.1.2.2.1, some (locOrMain kb.1.2.2.2))

/-- Every movement of `db` carries a non-null, non-empty location — that is,
its location is a fixed point of `location or "Main Store"`.  All code paths
that insert movements keep this invariant: the ORM default and every explicit
insert use `"Main Store"` or `location or "Main Store"`. -/
def LocationsNormal (db : DB) : Prop :=
  ∀ m ∈ db.movements, m.location = some (locOrMain m.location)

instance (db : DB) : Decidable (LocationsNormal db) :=
  decidable_of_iff
    (∀ m ∈ db.movements, m.location = some (locOrMain m.location)) Iff.rfl

/-! ### Concrete witness data -/

/-- Stock-in movement: batch `A`, 10 units, expires day 100, cost 5. -/
def exMvA : StockMovement :=
  { user_id := 1, branch_id := 1, product_id := 1, change := 10,
    reason := "New Stock", batch_number := some "A", expiry_date := some 100,
    unit_cost_price := some 5, location := some "Main Store", created_at := 1 }

/-- Stock-in movement: batch `B`, 20 units, expires day 200, cost 6. -/
def exMvB : StockMovement :=
  { user_id := 1, branch_id := 1, product_id := 1, change := 20,
    reason := "New Stock", batch_number := some "B", expiry_date := some 200,
    unit_cost_price := some 6, location := some "Main Store", created_at := 2 }

/-- A catalog product owned by user 1 in branch 1. -/
def exProd : Product :=
  { id := 1, user_id := 1, branch_id := 1, name := "P", cost_price := some 2 }

/-- A database holding batches `A` (10 units) and `B` (20 units) of product 1. -/
def exDB : DB :=
  { movements := [exMvA, exMvB], products := [exProd], next_id := 3 }

/-- A cash sale request for 15 units. -/
def exPay15 : SaleCreate :=
  { product_id := 1, quantity := 15, unit_price := 30, total_price := 450 }

/-- A sale request exceeding the 30 units on hand. -/
def exPayBig : SaleCreate := { exPay15 with quantity := 31 }

/-- A partial-payment sale: total 100, 60 paid upfront by customer `Ama`. -/
def exPayPart : SaleCreate :=
  { product_id := 1, quantity := 5, unit_price := 20, total_price := 100,
    customer_name := some "Ama", payment_method := "partial",
    amount_paid := some 60 }

/-- A credit sale with an upfront payment of 30 on a total of 100. -/
def exPayCred : SaleCreate :=
  { exPayPart with payment_method := "credit", amount_paid := some 30 }

/-- A partial-payment sale claiming 120 paid on a total of 100. -/
def exPayOver : SaleCreate := { exPayPart with amount_paid := some 120 }

/-- A partial-payment sale submitted without any customer name. -/
def exPayPartNoCust : SaleCreate := { exPayPart with customer_name := none }

/-- A cash sale request with an idempotency key. -/
def exPayIdem : SaleCreate := { exPay15 with client_sale_id := some "xyz" }

/-- A sale of 10 units (id 5) by user 1 in branch 1. -/
def exSale10 : Sale :=
  { id := 5, user_id := 1, branch_id := 1, product_id := 1, quantity := 10,
    unit_price := 30, total_price := 300 }

/-- A prior return of 4 units against sale 5. -/
def exRet4 : SaleReturn :=
  { id := 6, user_id := 1, branch_id := 1, sale_id := 5, product_id := 1,
    quantity_returned := 4, refund_amount := 120, refund_method := "cash",
    restock := true }

/-- A database holding sale 5 (quantity 10) with 4 units already returned. -/
def exDBRet : DB :=
  { movements := [exMvA, exMvB], products := [exProd], sales := [exSale10],
    sale_returns := [exRet4], next_id := 7 }

/-- A second return request of 7 units against sale 5 (would exceed 10). -/
def exRet7 : ReturnCreate :=
  { sale_id := 5, quantity_returned := 7, refund_amount := 210 }

/-- A second return request of 6 units against sale 5 (4 + 6 = 10, allowed). -/
def exRet6 : ReturnCreate :=
  { sale_id := 5, quantity_returned := 6, refund_amount := 180 }

/-- The stock movement created by sale 10: 5 units of batch `A` deducted. -/
def mvDel : StockMovement :=
  { user_id := 1, branch_id := 1, product_id := 1, sale_id := some 10,
    change := -5, reason := "Sale", batch_number := some "A",
    expiry_date := some 100, unit_cost_price := some 5,
    unit_selling_price := some 20, location := some "Main Store",
    created_at := 4 }

/-- A credit sale (id 10) of 5 units for 100 to customer `Ama`. -/
def saleDel : Sale :=
  { id := 10, user_id := 1, branch_id := 1, product_id := 1, quantity := 5,
    unit_price := 20, total_price := 100, customer_name := some "Ama",
    payment_method := "credit" }

/-- The debt transaction sale 10 recorded against creditor 2. -/
def txDel : CreditTransaction :=
  { id := 11, user_id := 1, branch_id := 1, creditor_id := 2,
    sale_id := some 10, amount := 100, transaction_type := "debt" }

/-- Creditor `Ama` before sale 10: no debt. -/
def credDel0 : Creditor :=
  { id := 2, user_id := 1, branch_id := 1, name := "Ama", total_debt := 0 }

/-- The state before sale 10 was created. -/
def dbDel0 : DB :=
  { movements := [exMvA, exMvB], products := [exProd],
    creditors := [credDel0], next_id := 4 }

/-- The state after sale 10 was created: its movement, sale row, debt
transaction, and the creditor balance pushed to 100. -/
def dbDel1 : DB :=
  { movements := [exMvA, exMvB, mvDel], products := [exProd],
    sales := [saleDel], creditors := [{ credDel0 with total_debt := 100 }],
    credit_transactions := [txDel], next_id := 12 }

/-! ## Theorems -/

/-! ### Frame lemmas: which tables each stage leaves untouched -/

theorem writeoff_frame (db : DB) (a : Nat) (uids : List Nat) (br : Nat)
    (pid? : Option Nat) (t : Day) :
    ((writeoff_expired_batches db a uids br pid? t).2).sales = db.sales ∧
    ((writeoff_expired_batches db a uids br pid? t).2).products = db.products ∧
    ((writeoff_expired_batches db a uids br pid? t).2).creditors = db.creditors ∧
    ((writeoff_expired_batches db a uids br pid? t).2).credit_transactions
      = db.credit_transactions ∧
    ((writeoff_expired_batches db a uids br pid? t).2).sale_returns
      = db.sale_returns ∧
    ((writeoff_expired_batches db a uids br pid? t).2).movements
      = db.movements ++ writeoffMovements db a uids br pid? t :=
  ⟨rfl, rfl, rfl, rfl, rfl, rfl⟩

theorem foldl_deductStep_frame (uid : Nat) (uids : List Nat) (branch : Nat)
    (product : Product) (p : SaleCreate) (sid : Nat) (db : DB)
    (bts : List (BatchBalance × Qty)) (acc : DB × List DeductedBatch) :
    ((bts.foldl (deductStep uid uids branch product p sid db) acc).1).sales
        = acc.1.sales ∧
    ((bts.foldl (deductStep uid uids branch product p sid db) acc).1).products
        = acc.1.products ∧
    ((bts.foldl (deductStep uid uids branch product p sid db) acc).1).creditors
        = acc.1.creditors ∧
    ((bts.foldl (deductStep uid uids branch product p sid db) acc).1).credit_transactions
        = acc.1.credit_transactions ∧
    ((bts.foldl (deductStep uid uids branch product p sid db) acc).1).sale_returns
        = acc.1.sale_returns := by
  induction bts generalizing acc with
  | nil => exact ⟨rfl, rfl, rfl, rfl, rfl⟩
  | cons b bs ih =>
    rw [List.foldl_cons]
    exact ih _

theorem deduct_stock_frame (uid : Nat) (uids : List Nat) (branch : Nat)
    (product : Product) (p : SaleCreate) (sid : Nat) (today : Day) (db : DB) :
    ((deduct_stock uid uids branch product p sid today db).1).sales = db.sales ∧
    ((deduct_stock uid uids branch product p sid today db).1).products
        = db.products ∧
    ((deduct_stock uid uids branch product p sid today db).1).creditors
        = db.creditors ∧
    ((deduct_stock uid uids branch product p sid today db).1).credit_transactions
        = db.credit_transactions ∧
    ((deduct_stock uid uids branch product p sid today db).1).sale_returns
        = db.sale_returns := by
  unfold deduct_stock
  dsimp only
  split
  · exact foldl_deductStep_frame uid uids branch product p sid db _ _
  · exact foldl_deductStep_frame uid uids branch product p sid db _ _

theorem after_creditor_frame (p : SaleCreate) (sid uid branch : Nat) (db : DB)
    (cid : Nat) (ca : Qty) :
    (after_creditor p sid uid branch db cid ca).movements = db.movements ∧
    (after_creditor p sid uid branch db cid ca).sales = db.sales ∧
    (after_creditor p sid uid branch db cid ca).products = db.products ∧
    (after_creditor p sid uid branch db cid ca).sale_returns = db.sale_returns := by
  unfold after_creditor
  dsimp only
  split <;> exact ⟨rfl, rfl, rfl, rfl⟩

theorem record_credit_frame (p : SaleCreate) (sid uid : Nat) (uids : List Nat)
    (branch : Nat) (db : DB) (ca : Qty) :
    (record_credit p sid uid uids branch db ca).movements = db.movements ∧
    (record_credit p sid uid uids branch db ca).sales = db.sales ∧
    (record_credit p sid uid uids branch db ca).products = db.products ∧
    (record_credit p sid uid uids branch db ca).sale_returns = db.sale_returns := by
  unfold record_credit
  dsimp only
  split
  · split
    · exact after_creditor_frame p sid uid branch _ _ ca
    · exact after_creditor_frame p sid uid branch _ _ ca
  · exact ⟨rfl, rfl, rfl, rfl⟩

theorem credit_stage_frame (p : SaleCreate) (sid uid : Nat) (uids : List Nat)
    (branch : Nat) (db db2 : DB)
    (h : credit_stage p sid uid uids branch db = .ok db2) :
    db2.movements = db.movements ∧ db2.sales = db.sales ∧
    db2.products = db.products ∧ db2.sale_returns = db.sale_returns := by
  unfold credit_stage at h
  split_ifs at h with h1 h2
  · rw [Except.ok.injEq] at h
    rw [← h]
    exact record_credit_frame p sid uid uids branch db p.total_price
  · dsimp only at h
    split_ifs at h with h3
    rw [Except.ok.injEq] at h
    rw [← h]
    exact record_credit_frame p sid uid uids branch db _
  · rw [Except.ok.injEq] at h
    rw [← h]
    exact ⟨rfl, rfl, rfl, rfl⟩

/-! ### The success path of `create_sale`, decomposed -/

theorem create_sale_ok_build (p : SaleCreate) (uid : Nat) (uids : List Nat)
    (branch : Nat) (today : Day) (db0 : DB) (sid : Nat)
    (d : List DeductedBatch) (db' : DB)
    (hrep : find_existing_sale p uids branch
      (writeoff_expired_batches db0 uid uids branch (some p.product_id) today).2
      = none)
    (h : create_sale p uid uids branch today db0 = .ok (sid, d, db')) :
    ∃ product,
      find_product p uids branch
        (writeoff_expired_batches db0 uid uids branch (some p.product_id) today).2
        = some product ∧
      ¬ (available_stock
          (writeoff_expired_batches db0 uid uids branch (some p.product_id) today).2
          uids branch p.product_id < p.quantity) ∧
      sid = (writeoff_expired_batches db0 uid uids branch (some p.product_id) today).2.next_id ∧
      d = (deduct_stock uid uids branch product p sid today
            (afterSaleInsert p uid branch
              (writeoff_expired_batches db0 uid uids branch (some p.product_id) today).2)).2 ∧
      credit_stage p sid uid uids branch
        (deduct_stock uid uids branch product p sid today
          (afterSaleInsert p uid branch
            (writeoff_expired_batches db0 uid uids branch (some p.product_id) today).2)).1
        = .ok db' := by
  unfold create_sale at h
  dsimp only at h
  rw [hrep] at h
  dsimp only at h
  cases hp : find_product p uids branch
      (writeoff_expired_batches db0 uid uids branch (some p.product_id) today).2 with
  | none => rw [hp] at h; exact absurd h (by simp)
  | some product =>
    rw [hp] at h
    dsimp only at h
    by_cases hav : available_stock
        (writeoff_expired_batches db0 uid uids branch (some p.product_id) today).2
        uids branch p.product_id < p.quantity
    · rw [if_pos hav] at h
      exact absurd h (by simp)
    · rw [if_neg hav] at h
      split at h
      · exact absurd h (by simp)
      · rename_i db2 heq
        simp only [Except.ok.injEq, Prod.mk.injEq] at h
        obtain ⟨hsid, hd, hdb⟩ := h
        subst hsid
        subst hd
        subst hdb
        exact ⟨product, rfl, hav, rfl, rfl, heq⟩

/-- C9: movement-reason validation on the normalized (trimmed, case-folded)
reason accepts exactly the non-blank reasons whose sign rule holds: a blank
reason is always rejected; a reason in the positive-only set or beginning
with `returned` requires `delta > 0`; a reason in the negative-only set
requires `delta < 0`; adjustment reasons and unrecognized non-blank reasons
are accepted with either sign. -/
theorem C9_reason_sign_rules (reason : Option String) (change : Qty) :
    MovementReasons.validate_reason_and_change reason change = none ↔
      (MovementReasons.norm reason ≠ "" ∧
        ((MovementReasons.norm reason).startsWith "returned" = true → 0 < change) ∧
        (MovementReasons.norm reason ∈ MovementReasons.positive_only → 0 < change) ∧
        (MovementReasons.norm reason ∈ MovementReasons.negative_only → change < 0)) := by
  unfold MovementReasons.validate_reason_and_change
  dsimp only
  split_ifs with h1 h2 h3 h4 <;>
    simp_all [String.isEmpty_iff, List.contains_eq_any_beq, List.any_beq, List.elem_iff, not_le, not_lt, le_of_lt]

/-- C1: a sale request (not an idempotent replay, for an existing product)
whose quantity exceeds the total available stock — the sum of all movement
deltas for the product and branch, computed after the expiry write-off has
run — is rejected with the insufficient-stock error carrying that available
quantity, and the committed state is unchanged: no sale row and no stock
movement is persisted. -/
theorem C1_insufficient_stock_rejected
    (p : SaleCreate) (uid : Nat) (uids : List Nat) (branch : Nat) (today : Day)
    (db0 : DB) (product : Product)
    (hrep : find_existing_sale p uids branch
      (writeoff_expired_batches db0 uid uids branch (some p.product_id) today).2
      = none)
    (hprod : find_product p uids branch
      (writeoff_expired_batches db0 uid uids branch (some p.product_id) today).2
      = some product)
    (hins : available_stock
      (writeoff_expired_batches db0 uid uids branch (some p.product_id) today).2
      uids branch p.product_id < p.quantity) :
    create_sale p uid uids branch today db0 =
      .error (.insufficientStock (available_stock
        (writeoff_expired_batches db0 uid uids branch (some p.product_id) today).2
        uids branch p.product_id)) ∧
    create_sale_state p uid uids branch today db0 = db0 := by
  have hmain : create_sale p uid uids branch today db0 =
      .error (.insufficientStock (available_stock
        (writeoff_expired_batches db0 uid uids branch (some p.product_id) today).2
        uids branch p.product_id)) := by
    unfold create_sale
    dsimp only
    rw [hrep, hprod]
    dsimp only
    rw [if_pos hins]
  refine ⟨hmain, ?_⟩
  unfold create_sale_state
  rw [hmain]

/-- C1 witness: requesting 31 units of a product with 30 on hand is rejected
with the error reporting 30 available, and the database is untouched. -/
theorem C1_witness :
    create_sale exPayBig 1 [1] 1 50 exDB =
      .error (.insufficientStock (available_stock
        (writeoff_expired_batches exDB 1 [1] 1 (some exPayBig.product_id) 50).2
        [1] 1 exPayBig.product_id)) ∧
    create_sale_state exPayBig 1 [1] 1 50 exDB = exDB :=
  C1_insufficient_stock_rejected exPayBig 1 [1] 1 50 exDB exProd
    (by with_unfolding_all decide) (by with_unfolding_all decide)
    (by with_unfolding_all decide)

/-- C8: a return against a sale is accepted exactly when the requested
quantity does not exceed the sale's quantity minus the summed prior returns;
an excessive request is rejected with a validation error and leaves the
committed state unchanged (no return record, no stock movement), while an
admissible request appends the return record. -/
theorem C8_return_bound
    (p : ReturnCreate) (uid : Nat) (uids : List Nat) (branch : Nat) (db : DB)
    (sale : Sale)
    (hfind : db.sales.find? (fun s =>
        s.id == p.sale_id && uids.contains s.user_id && s.branch_id == branch)
      = some sale) :
    (sale.quantity - already_returned db uids p.sale_id < p.quantity_returned →
      create_return p uid uids branch db =
        .error (.exceedsReturnable
          (sale.quantity - already_returned db uids p.sale_id)
          (already_returned db uids p.sale_id)) ∧
      create_return_state p uid uids branch db = db) ∧
    (p.quantity_returned ≤ sale.quantity - already_returned db uids p.sale_id →
      ∃ db', create_return p uid uids branch db = .ok (db.next_id, db') ∧
        db'.sale_returns = db.sale_returns ++
          [{ id := db.next_id, user_id := uid, branch_id := branch,
             sale_id := p.sale_id, product_id := sale.product_id,
             quantity_returned := p.quantity_returned,
             refund_amount := p.refund_amount,
             refund_method := p.refund_method, restock := p.restock }]) := by
  constructor
  · intro hlt
    have herr : create_return p uid uids branch db =
        .error (.exceedsReturnable
          (sale.quantity - already_returned db uids p.sale_id)
          (already_returned db uids p.sale_id)) := by
      unfold create_return
      rw [hfind]
      dsimp only
      rw [if_pos hlt]
    refine ⟨herr, ?_⟩
    unfold create_return_state
    rw [herr]
  · intro hle
    unfold create_return
    rw [hfind]
    dsimp only
    rw [if_neg (not_lt.mpr hle)]
    refine ⟨_, rfl, ?_⟩
    dsimp only
    repeat' split
    all_goals simp

/-- C8 witness: against sale 5 (quantity 10, 4 already returned), a return of
7 is rejected with the committed state untouched, and a return of 6 is
accepted with its record appended. -/
theorem C8_witness :
    (create_return exRet7 1 [1] 1 exDBRet =
        .error (.exceedsReturnable
          (exSale10.quantity - already_returned exDBRet [1] exRet7.sale_id)
          (already_returned exDBRet [1] exRet7.sale_id)) ∧
      create_return_state exRet7 1 [1] 1 exDBRet = exDBRet) ∧
    (∃ db', create_return exRet6 1 [1] 1 exDBRet = .ok (exDBRet.next_id, db') ∧
      db'.sale_returns = exDBRet.sale_returns ++
        [{ id := exDBRet.next_id, user_id := 1, branch_id := 1,
           sale_id := exRet6.sale_id, product_id := exSale10.product_id,
           quantity_returned := exRet6.quantity_returned,
           refund_amount := exRet6.refund_amount,
           refund_method := exRet6.refund_method, restock := exRet6.restock }]) :=
  ⟨(C8_return_bound exRet7 1 [1] 1 exDBRet exSale10
      (by with_unfolding_all decide)).1 (by with_unfolding_all decide),
   (C8_return_bound exRet6 1 [1] 1 exDBRet exSale10
      (by with_unfolding_all decide)).2 (by with_unfolding_all decide)⟩

/-! ### Allocation-loop lemmas -/

theorem allocateLoop_sum (bs : List BatchBalance) (q : Qty) (hq : 0 ≤ q) :
    (((allocateLoop bs q).1).map (fun bt => bt.2)).sum = q - (allocateLoop bs q).2 ∧
    0 ≤ (allocateLoop bs q).2 := by
  induction bs generalizing q with
  | nil => exact ⟨by simp [allocateLoop], by simpa [allocateLoop] using hq⟩
  | cons b bs ih =>
    rw [allocateLoop]
    dsimp only
    by_cases h1 : q ≤ 0
    · rw [if_pos h1]
      exact ⟨by simp, hq⟩
    · rw [if_neg h1]
      by_cases h2 : (if b.balance ≤ q then b.balance else q) ≤ 0
      · rw [if_pos h2]
        exact ih q hq
      · rw [if_neg h2]
        have htake : (if b.balance ≤ q then b.balance else q) ≤ q := by
          split_ifs with hb
          · exact hb
          · exact le_refl q
        have hrest := ih (q - (if b.balance ≤ q then b.balance else q))
          (by linarith)
        refine ⟨?_, hrest.2⟩
        dsimp only
        rw [List.map_cons, List.sum_cons, hrest.1]
        ring

theorem allocateLoop_take_bound (bs : List BatchBalance) (q : Qty) :
    ∀ bt ∈ (allocateLoop bs q).1, bt.1 ∈ bs ∧ 0 < bt.2 ∧ bt.2 ≤ bt.1.balance := by
  induction bs generalizing q with
  | nil => intro bt hbt; simp [allocateLoop] at hbt
  | cons b bs ih =>
    intro bt hbt
    rw [allocateLoop] at hbt
    dsimp only at hbt
    by_cases h1 : q ≤ 0
    · rw [if_pos h1] at hbt
      simp at hbt
    · rw [if_neg h1] at hbt
      by_cases h2 : (if b.balance ≤ q then b.balance else q) ≤ 0
      · rw [if_pos h2] at hbt
        obtain ⟨hmem, hpos, hle⟩ := ih q bt hbt
        exact ⟨List.mem_cons_of_mem b hmem, hpos, hle⟩
      · rw [if_neg h2] at hbt
        dsimp only at hbt
        rw [List.mem_cons] at hbt
        rcases hbt with hbt | hbt
        · subst hbt
          refine ⟨List.mem_cons_self b bs, lt_of_not_le h2, ?_⟩
          dsimp only
          split_ifs with hb
          · exact le_refl _
          · exact le_of_lt (lt_of_not_le hb)
        · obtain ⟨hmem, hpos, hle⟩ := ih _ bt hbt
          exact ⟨List.mem_cons_of_mem b hmem, hpos, hle⟩

/-! ### Deduction-stage output lemmas -/

theorem foldl_deductStep_snd (uid : Nat) (uids : List Nat) (branch : Nat)
    (product : Product) (p : SaleCreate) (sid : Nat) (db : DB)
    (bts : List (BatchBalance × Qty)) (acc : DB × List DeductedBatch) :
    (bts.foldl (deductStep uid uids branch product p sid db) acc).2 =
      acc.2 ++ bts.map (fun bt =>
        ⟨some bt.1.batch_number, bt.1.expiry_date, bt.2, locOrMain bt.1.location⟩) := by
  induction bts generalizing acc with
  | nil => simp
  | cons b bs ih =>
    rw [List.foldl_cons, ih]
    simp [deductStep]

theorem deduct_stock_deducted (uid : Nat) (uids : List Nat) (branch : Nat)
    (product : Product) (p : SaleCreate) (sid : Nat) (today : Day) (db : DB) :
    (deduct_stock uid uids branch product p sid today db).2 =
      ((allocateLoop (available_batches db uids branch p.product_id today)
          p.quantity).1).map (fun bt =>
        ⟨some bt.1.batch_number, bt.1.expiry_date, bt.2, locOrMain bt.1.location⟩)
      ++ (if 0 < (allocateLoop (available_batches db uids branch p.product_id today)
            p.quantity).2 then
          [⟨none, none,
            (allocateLoop (available_batches db uids branch p.product_id today)
              p.quantity).2, "Main Store"⟩]
        else []) := by
  unfold deduct_stock
  dsimp only
  split_ifs with h
  · rw [foldl_deductStep_snd]
    simp
  · rw [foldl_deductStep_snd]
    simp

theorem deduct_stock_deducted_sum (uid : Nat) (uids : List Nat) (branch : Nat)
    (product : Product) (p : SaleCreate) (sid : Nat) (today : Day) (db : DB)
    (hq : 0 ≤ p.quantity) :
    (((deduct_stock uid uids branch product p sid today db).2).map
      (·.quantity)).sum = p.quantity := by
  rw [deduct_stock_deducted]
  obtain ⟨hsum, hrem⟩ := allocateLoop_sum
    (available_batches db uids branch p.product_id today) p.quantity hq
  rw [List.map_append, List.sum_append, List.map_map]
  have hfst : (((allocateLoop (available_batches db uids branch p.product_id today)
      p.quantity).1).map
        (DeductedBatch.quantity ∘ fun bt =>
          (⟨some bt.1.batch_number, bt.1.expiry_date, bt.2,
            locOrMain bt.1.location⟩ : DeductedBatch))).sum =
      p.quantity - (allocateLoop (available_batches db uids branch p.product_id today)
        p.quantity).2 := by
    rw [← hsum]
    rfl
  rw [hfst]
  split_ifs with h
  · simp
  · have : (allocateLoop (available_batches db uids branch p.product_id today)
        p.quantity).2 = 0 := le_antisymm (not_lt.mp h) hrem
    rw [this]
    simp

/-- C2: for an accepted (non-replayed) sale, the allocator walks the
available batches (positive balance, not expired, sorted ascending by expiry
with null-expiry batches last), each consumed pair taking a positive quantity
bounded by that batch's balance, and the recorded deduction quantities
(including any final unbatched remainder) sum exactly to the requested
quantity. -/
theorem C2_fifo_deduction (p : SaleCreate) (uid : Nat) (uids : List Nat)
    (branch : Nat) (today : Day) (db0 : DB) (sid : Nat)
    (d : List DeductedBatch) (db' : DB)
    (hq : 0 < p.quantity)
    (hrep : find_existing_sale p uids branch
      (writeoff_expired_batches db0 uid uids branch (some p.product_id) today).2
      = none)
    (h : create_sale p uid uids branch today db0 = .ok (sid, d, db')) :
    (d.map (·.quantity)).sum = p.quantity ∧
    ∀ bt ∈ (allocateLoop
        (available_batches
          (writeoff_expired_batches db0 uid uids branch (some p.product_id) today).2
          uids branch p.product_id today)
        p.quantity).1,
      bt.1 ∈ available_batches
          (writeoff_expired_batches db0 uid uids branch (some p.product_id) today).2
          uids branch p.product_id today ∧
        0 < bt.2 ∧ bt.2 ≤ bt.1.balance := by
  obtain ⟨product, -, -, -, hd, -⟩ :=
    create_sale_ok_build p uid uids branch today db0 sid d db' hrep h
  constructor
  · rw [hd]
    exact deduct_stock_deducted_sum uid uids branch product p sid today _
      (le_of_lt hq)
  · exact allocateLoop_take_bound _ p.quantity

/-- C2 witness: with batch `A` (10 units, expiring day 100) and batch `B`
(20 units, expiring day 200), a sale of 15 units on day 50 deducts 10 from
`A` and 5 from `B`, and the deducted quantities sum to the requested 15. -/
theorem C2_witness :
    create_sale_deductions exPay15 1 [1] 1 50 exDB =
      [⟨some "A", some 100, 10, "Main Store"⟩,
       ⟨some "B", some 200, 5, "Main Store"⟩] ∧
    ((create_sale_deductions exPay15 1 [1] 1 50 exDB).map (·.quantity)).sum
      = exPay15.quantity := by
  have h : create_sale exPay15 1 [1] 1 50 exDB =
      .ok (3, create_sale_deductions exPay15 1 [1] 1 50 exDB,
        create_sale_state exPay15 1 [1] 1 50 exDB) := by
    with_unfolding_all rfl
  refine ⟨by with_unfolding_all decide, ?_⟩
  exact (C2_fifo_deduction exPay15 1 [1] 1 50 exDB 3 _ _
    (by with_unfolding_all decide) (by with_unfolding_all decide) h).1

/-- C3: submitting the same `client_sale_id` twice (starting from a state
with no sale under that key) yields the same sale id both times, and the
second submission commits nothing: the whole database — sale rows, stock
movements, credit transactions — is exactly as the first submission left
it. -/
theorem C3_idempotent_retry (p : SaleCreate) (uid : Nat) (uids : List Nat)
    (branch : Nat) (today : Day) (db0 : DB) (csid : String) (sid : Nat)
    (d : List DeductedBatch) (db1 : DB)
    (hcs : p.client_sale_id = some csid)
    (hne : csid ≠ "")
    (huid : uid ∈ uids)
    (hnone : ∀ s ∈ db0.sales,
      (s.branch_id == branch && uids.contains s.user_id &&
        s.client_sale_id == p.client_sale_id) = false)
    (h1 : create_sale p uid uids branch today db0 = .ok (sid, d, db1)) :
    create_sale p uid uids branch today db1 = .ok (sid, [], db1) ∧
    create_sale_state p uid uids branch today db1 = db1 := by
  have hempty : csid.isEmpty = false := by
    rw [Bool.eq_false_iff]
    intro hx
    exact hne ((String.isEmpty_iff csid).mp hx)
  have hstr : strTruthy p.client_sale_id = true := by
    rw [hcs]
    simp [strTruthy, hempty]
  have hrep : find_existing_sale p uids branch
      (writeoff_expired_batches db0 uid uids branch (some p.product_id) today).2
      = none := by
    unfold find_existing_sale
    rw [if_pos hstr, List.find?_eq_none]
    intro s hs
    have hs0 : s ∈ db0.sales := by
      rw [(writeoff_frame db0 uid uids branch (some p.product_id) today).1] at hs
      exact hs
    rw [hnone s hs0]
    simp
  obtain ⟨product, hp, hav, hsid, hd, hcstage⟩ :=
    create_sale_ok_build p uid uids branch today db0 sid d db1 hrep h1
  subst hsid
  have hsales : db1.sales = db0.sales ++
      [newSaleRow p uid branch
        (writeoff_expired_batches db0 uid uids branch (some p.product_id) today).2.next_id] := by
    rw [(credit_stage_frame _ _ _ _ _ _ db1 hcstage).2.1,
      (deduct_stock_frame uid uids branch product p _ today _).1]
    show (afterSaleInsert p uid branch _).sales = _
    unfold afterSaleInsert
    dsimp only
    rw [(writeoff_frame db0 uid uids branch (some p.product_id) today).1]
  have hrowpred : ((newSaleRow p uid branch
      (writeoff_expired_batches db0 uid uids branch (some p.product_id) today).2.next_id).branch_id
        == branch &&
      uids.contains (newSaleRow p uid branch
        (writeoff_expired_batches db0 uid uids branch (some p.product_id) today).2.next_id).user_id &&
      (newSaleRow p uid branch
        (writeoff_expired_batches db0 uid uids branch (some p.product_id) today).2.next_id).client_sale_id
        == p.client_sale_id) = true := by
    simp [newSaleRow, List.contains_eq_any_beq, List.any_beq, List.elem_iff, huid]
  have hfind2 : find_existing_sale p uids branch
      (writeoff_expired_batches db1 uid uids branch (some p.product_id) today).2
      = some (newSaleRow p uid branch
        (writeoff_expired_batches db0 uid uids branch (some p.product_id) today).2.next_id) := by
    unfold find_existing_sale
    rw [if_pos hstr,
      (writeoff_frame db1 uid uids branch (some p.product_id) today).1,
      hsales, List.find?_append]
    have hl : db0.sales.find? (fun s =>
        s.branch_id == branch && uids.contains s.user_id &&
          s.client_sale_id == p.client_sale_id) = none := by
      rw [List.find?_eq_none]
      intro s hs
      rw [hnone s hs]
      simp
    rw [hl]
    simp only [Option.none_or]
    exact List.find?_cons_of_pos _ hrowpred
  have hmain : create_sale p uid uids branch today db1 =
      .ok ((writeoff_expired_batches db0 uid uids branch (some p.product_id) today).2.next_id,
        [], db1) := by
    unfold create_sale
    dsimp only
    rw [hfind2]
    rfl
  refine ⟨hmain, ?_⟩
  unfold create_sale_state
  rw [hmain]

/-- C3 witness: submitting the keyed request `exPayIdem` twice yields sale id
3 both times, and the second call leaves the state of the first call
untouched. -/
theorem C3_witness :
    create_sale exPayIdem 1 [1] 1 50
        (create_sale_state exPayIdem 1 [1] 1 50 exDB) =
      .ok (3, [], create_sale_state exPayIdem 1 [1] 1 50 exDB) ∧
    create_sale_state exPayIdem 1 [1] 1 50
        (create_sale_state exPayIdem 1 [1] 1 50 exDB) =
      create_sale_state exPayIdem 1 [1] 1 50 exDB :=
  C3_idempotent_retry exPayIdem 1 [1] 1 50 exDB "xyz" 3
    (create_sale_deductions exPayIdem 1 [1] 1 50 exDB)
    (create_sale_state exPayIdem 1 [1] 1 50 exDB)
    rfl (by decide) (by decide) (by with_unfolding_all decide)
    (by with_unfolding_all rfl)

/-! ### Creditor-table lemmas -/

theorem filter_id_length_one {l : List Creditor} {c : Creditor}
    (hn : (l.map (·.id)).Nodup) (hc : c ∈ l) :
    (l.filter fun c0 => c0.id == c.id).length = 1 := by
  induction l with
  | nil => cases hc
  | cons x l ih =>
    rw [List.map_cons, List.nodup_cons] at hn
    rw [List.mem_cons] at hc
    rw [List.filter_cons]
    rcases hc with rfl | hc
    · rw [if_pos (by simp)]
      have h0 : (l.filter fun c0 => c0.id == c.id).length = 0 := by
        rw [List.length_eq_zero, List.filter_eq_nil_iff]
        intro a ha
        simp only [beq_iff_eq]
        intro hEq
        exact hn.1 (hEq ▸ List.mem_map_of_mem (·.id) ha)
      simp [h0]
    · rw [if_neg ?hneq]
      · exact ih hn.2 hc
      case hneq =>
        simp only [beq_iff_eq]
        intro hEq
        exact hn.1 (hEq ▸ List.mem_map_of_mem (·.id) hc)

theorem creditorSum_update (l : List Creditor) (cid : Nat) (g : Qty → Qty)
    (δ : Qty) (hg : ∀ x, g x = x + δ)
    (h : (l.filter fun c0 => c0.id == cid).length = 1) :
    ((l.map fun c0 => if c0.id == cid then
        { c0 with total_debt := g c0.total_debt } else c0).map
      (·.total_debt)).sum = (l.map (·.total_debt)).sum + δ := by
  induction l with
  | nil => simp at h
  | cons x l ih =>
    rw [List.filter_cons] at h
    by_cases hx : (x.id == cid) = true
    · rw [if_pos hx] at h
      have h9 : (List.filter (fun c0 => c0.id == cid) l).length = 0 := by
        simp only [List.length_cons] at h
        omega
      have h0 : ∀ c0 ∈ l, ¬(c0.id == cid) = true := by
        rw [List.length_eq_zero, List.filter_eq_nil_iff] at h9
        exact h9
      have hmap : (l.map fun c0 => if c0.id == cid then
          { c0 with total_debt := g c0.total_debt } else c0) = l := by
        rw [List.map_congr_left (g := id) fun c0 hc0 => by
          rw [if_neg (h0 c0 hc0)]; rfl]
        exact List.map_id l
      simp only [List.map_cons, if_pos hx, List.sum_cons]
      rw [hmap, hg]
      ring
    · rw [if_neg hx] at h
      simp only [List.map_cons, if_neg hx, List.sum_cons, ih h]
      ring

theorem update_filter_id_length (l : List Creditor) (cid cid' : Nat)
    (g : Qty → Qty) :
    ((l.map fun c0 => if c0.id == cid' then
        { c0 with total_debt := g c0.total_debt } else c0).filter
      (fun c0 => c0.id == cid)).length =
    (l.filter fun c0 => c0.id == cid).length := by
  induction l with
  | nil => rfl
  | cons x l ih =>
    rw [List.map_cons]
    by_cases hx : (x.id == cid') = true
    · rw [if_pos hx, List.filter_cons, List.filter_cons]
      by_cases hx2 : (x.id == cid) = true
      · rw [if_pos hx2, if_pos hx2, List.length_cons, List.length_cons, ih]
      · rw [if_neg hx2, if_neg hx2]
        exact ih
    · rw [if_neg hx, List.filter_cons, List.filter_cons]
      by_cases hx2 : (x.id == cid) = true
      · rw [if_pos hx2, if_pos hx2, List.length_cons, List.length_cons, ih]
      · rw [if_neg hx2, if_neg hx2]
        exact ih

theorem after_creditor_skip (p : SaleCreate) (sid uid branch : Nat) (db : DB)
    (cid : Nat) (ca : Qty)
    (hskip : (decide (0 < p.amount_paid.getD 0) && (p.payment_method == "credit"))
      = false) :
    after_creditor p sid uid branch db cid ca = { db with
      credit_transactions := db.credit_transactions ++
        [⟨db.next_id, uid, branch, cid, some sid, ca, "debt"⟩]
      next_id := db.next_id + 1 } := by
  unfold after_creditor
  dsimp only
  rw [if_neg (by rw [hskip]; simp)]

theorem after_creditor_credit (p : SaleCreate) (sid uid branch : Nat) (db : DB)
    (cid : Nat) (ca a : Qty)
    (ha : p.amount_paid = some a) (hapos : 0 < a)
    (hpm : p.payment_method = "credit") :
    after_creditor p sid uid branch db cid ca = { db with
      creditors := db.creditors.map fun (c : Creditor) =>
        if c.id == cid then { c with total_debt := c.total_debt - a } else c
      credit_transactions := (db.credit_transactions ++
        [⟨db.next_id, uid, branch, cid, some sid, ca, "debt"⟩]) ++
        [⟨db.next_id + 1, uid, branch, cid, some sid, a, "payment"⟩]
      next_id := db.next_id + 1 + 1 } := by
  unfold after_creditor
  dsimp only
  rw [if_pos (by simp [ha, hpm, hapos])]
  simp [ha]

theorem record_credit_skip_effect (p : SaleCreate) (sid uid : Nat)
    (uids : List Nat) (branch : Nat) (db : DB) (ca : Qty)
    (hskip : (decide (0 < p.amount_paid.getD 0) && (p.payment_method == "credit"))
      = false)
    (hcust : strTruthy p.customer_name = true)
    (hca : 0 < ca)
    (hids : (db.creditors.map (·.id)).Nodup) :
    (∃ tid cid, (record_credit p sid uid uids branch db ca).credit_transactions
      = db.credit_transactions ++ [⟨tid, uid, branch, cid, some sid, ca, "debt"⟩]) ∧
    creditorDebtSum (record_credit p sid uid uids branch db ca)
      = creditorDebtSum db + ca := by
  unfold record_credit
  rw [if_pos (by simp [hca, hcust])]
  dsimp only
  cases hfc : db.creditors.find? (fun c =>
      c.name == p.customer_name.getD "" && uids.contains c.user_id &&
        c.branch_id == branch) with
  | none =>
    dsimp only
    rw [after_creditor_skip p sid uid branch _ _ ca hskip]
    refine ⟨⟨_, _, rfl⟩, ?_⟩
    unfold creditorDebtSum
    simp
  | some c =>
    dsimp only
    rw [after_creditor_skip p sid uid branch _ _ ca hskip]
    refine ⟨⟨_, _, rfl⟩, ?_⟩
    unfold creditorDebtSum
    dsimp only
    exact creditorSum_update db.creditors c.id (· + ca) ca (fun x => rfl)
      (filter_id_length_one hids (List.mem_of_find?_eq_some hfc))

theorem record_credit_credit_effect (p : SaleCreate) (sid uid : Nat)
    (uids : List Nat) (branch : Nat) (db : DB) (ca a : Qty)
    (ha : p.amount_paid = some a) (hapos : 0 < a)
    (hpm : p.payment_method = "credit")
    (hcust : strTruthy p.customer_name = true)
    (hca : 0 < ca)
    (hids : (db.creditors.map (·.id)).Nodup)
    (hfresh : ∀ c ∈ db.creditors, c.id < db.next_id) :
    (∃ tid1 tid2 cid,
      (record_credit p sid uid uids branch db ca).credit_transactions
        = db.credit_transactions ++
          [⟨tid1, uid, branch, cid, some sid, ca, "debt"⟩,
           ⟨tid2, uid, branch, cid, some sid, a, "payment"⟩]) ∧
    creditorDebtSum (record_credit p sid uid uids branch db ca)
      = creditorDebtSum db + (ca - a) := by
  unfold record_credit
  rw [if_pos (by simp [hca, hcust])]
  dsimp only
  cases hfc : db.creditors.find? (fun c =>
      c.name == p.customer_name.getD "" && uids.contains c.user_id &&
        c.branch_id == branch) with
  | none =>
    dsimp only
    rw [after_creditor_credit p sid uid branch _ _ ca a ha hapos hpm]
    constructor
    · dsimp only
      rw [List.append_assoc]
      exact ⟨_, _, _, rfl⟩
    · unfold creditorDebtSum
      dsimp only
      rw [List.map_append]
      have hno : ∀ c0 ∈ db.creditors, ¬(c0.id == db.next_id) = true := by
        intro c0 hc0
        simp only [beq_iff_eq]
        exact Nat.ne_of_lt (hfresh c0 hc0)
      rw [List.map_congr_left (g := id) fun c0 hc0 => by
        rw [if_neg (hno c0 hc0)]; rfl]
      rw [List.map_id]
      simp
  | some c =>
    dsimp only
    rw [after_creditor_credit p sid uid branch _ _ ca a ha hapos hpm]
    constructor
    · dsimp only
      rw [List.append_assoc]
      exact ⟨_, _, _, rfl⟩
    · unfold creditorDebtSum
      dsimp only
      have hlen1 : (db.creditors.filter fun c0 => c0.id == c.id).length = 1 :=
        filter_id_length_one hids (List.mem_of_find?_eq_some hfc)
      have hsum1 := creditorSum_update db.creditors c.id (· + ca) ca
        (fun x => rfl) hlen1
      have hlen2 : ((db.creditors.map fun c0 => if c0.id == c.id then
          { c0 with total_debt := c0.total_debt + ca } else c0).filter
            (fun c0 => c0.id == c.id)).length = 1 := by
        rw [update_filter_id_length db.creditors c.id c.id (· + ca)]
        exact hlen1
      have hsum2 := creditorSum_update
        (db.creditors.map fun c0 => if c0.id == c.id then
          { c0 with total_debt := c0.total_debt + ca } else c0)
        c.id (· - a) (-a) (fun x => sub_eq_add_neg x a) hlen2
      rw [hsum2, hsum1]
      ring

theorem record_credit_no_customer (p : SaleCreate) (sid uid : Nat)
    (uids : List Nat) (branch : Nat) (db : DB) (ca : Qty)
    (hcust : strTruthy p.customer_name = false) :
    record_credit p sid uid uids branch db ca = db := by
  unfold record_credit
  rw [if_neg (by simp [hcust])]

/-- C6: a partial-payment sale with a customer name and
`0 < amountPaid < totalPrice` creates exactly one debt transaction of
`totalPrice − amountPaid` (and nothing else in the creditor ledger), raising
the total creditor exposure by exactly that amount; and a partial sale with a
truthy `amountPaid ≥ totalPrice` is rejected with the committed state
unchanged. -/
theorem C6_partial_payment (p : SaleCreate) (uid : Nat) (uids : List Nat)
    (branch : Nat) (today : Day) (db0 : DB) (a : Qty)
    (hpm : p.payment_method = "partial")
    (ha : p.amount_paid = some a) :
    (∀ sid d db', 0 < a → a < p.total_price →
      strTruthy p.customer_name = true →
      (db0.creditors.map (·.id)).Nodup →
      find_existing_sale p uids branch
        (writeoff_expired_batches db0 uid uids branch (some p.product_id) today).2
        = none →
      create_sale p uid uids branch today db0 = .ok (sid, d, db') →
      (∃ tid cid, db'.credit_transactions = db0.credit_transactions ++
        [⟨tid, uid, branch, cid, some sid, p.total_price - a, "debt"⟩]) ∧
      creditorDebtSum db' = creditorDebtSum db0 + (p.total_price - a)) ∧
    (a ≠ 0 → p.total_price ≤ a →
      find_existing_sale p uids branch
        (writeoff_expired_batches db0 uid uids branch (some p.product_id) today).2
        = none →
      ∀ product, find_product p uids branch
        (writeoff_expired_batches db0 uid uids branch (some p.product_id) today).2
        = some product →
      ¬ (available_stock
          (writeoff_expired_batches db0 uid uids branch (some p.product_id) today).2
          uids branch p.product_id < p.quantity) →
      create_sale p uid uids branch today db0 =
        .error .amountPaidNotBelowTotal ∧
      create_sale_state p uid uids branch today db0 = db0) := by
  constructor
  · intro sid d db' h0 hlt hcust hids hrep h
    obtain ⟨product, hp, hav, hsid, hd, hcstage⟩ :=
      create_sale_ok_build p uid uids branch today db0 sid d db' hrep h
    unfold credit_stage at hcstage
    rw [if_neg (by simp [hpm])] at hcstage
    rw [if_pos (by simp [hpm, ha, qtyTruthy, h0.ne'])] at hcstage
    dsimp only at hcstage
    rw [ha] at hcstage
    simp only [Option.getD_some] at hcstage
    rw [if_neg (not_le.mpr (sub_pos.mpr hlt))] at hcstage
    rw [Except.ok.injEq] at hcstage
    have hcr : (deduct_stock uid uids branch product p sid today
        (afterSaleInsert p uid branch
          (writeoff_expired_batches db0 uid uids branch (some p.product_id) today).2)).1.creditors
        = db0.creditors := by
      rw [(deduct_stock_frame uid uids branch product p sid today _).2.2.1]
      exact (writeoff_frame db0 uid uids branch (some p.product_id) today).2.2.1
    have hct : (deduct_stock uid uids branch product p sid today
        (afterSaleInsert p uid branch
          (writeoff_expired_batches db0 uid uids branch (some p.product_id) today).2)).1.credit_transactions
        = db0.credit_transactions := by
      rw [(deduct_stock_frame uid uids branch product p sid today _).2.2.2.1]
      exact (writeoff_frame db0 uid uids branch (some p.product_id) today).2.2.2.1
    obtain ⟨htx, hsum⟩ := record_credit_skip_effect p sid uid uids branch
      (deduct_stock uid uids branch product p sid today
        (afterSaleInsert p uid branch
          (writeoff_expired_batches db0 uid uids branch (some p.product_id) today).2)).1
      (p.total_price - a)
      (by simp [hpm])
      hcust (sub_pos.mpr hlt) (by rw [hcr]; exact hids)
    constructor
    · rw [← hcstage]
      rw [hct] at htx
      exact htx
    · rw [← hcstage, hsum]
      unfold creditorDebtSum
      rw [hcr]
  · intro hne0 hge hrep product hp hav
    have hcs : ∀ dbx : DB, credit_stage p
        (writeoff_expired_batches db0 uid uids branch (some p.product_id) today).2.next_id
        uid uids branch dbx = .error .amountPaidNotBelowTotal := by
      intro dbx
      unfold credit_stage
      rw [if_neg (by simp [hpm])]
      rw [if_pos (by simp [hpm, ha, qtyTruthy, hne0])]
      dsimp only
      rw [ha]
      simp only [Option.getD_some]
      rw [if_pos (sub_nonpos.mpr hge)]
    have herr : create_sale p uid uids branch today db0 =
        .error .amountPaidNotBelowTotal := by
      unfold create_sale
      dsimp only
      rw [hrep]
      dsimp only
      rw [hp]
      dsimp only
      rw [if_neg hav, hcs]
    refine ⟨herr, ?_⟩
    unfold create_sale_state
    rw [herr]

/-- C6 witness: total 100 with 60 paid upfront creates exactly one debt
transaction of 40 and raises the creditor exposure by 40; claiming 120 paid
on a total of 100 is rejected and commits nothing. -/
theorem C6_witness :
    ((∃ tid cid, (create_sale_state exPayPart 1 [1] 1 50 exDB).credit_transactions
        = exDB.credit_transactions ++
          [⟨tid, 1, 1, cid, some 3, exPayPart.total_price - 60, "debt"⟩]) ∧
      creditorDebtSum (create_sale_state exPayPart 1 [1] 1 50 exDB)
        = creditorDebtSum exDB + (exPayPart.total_price - 60)) ∧
    (create_sale exPayOver 1 [1] 1 50 exDB =
        .error .amountPaidNotBelowTotal ∧
      create_sale_state exPayOver 1 [1] 1 50 exDB = exDB) := by
  constructor
  · exact (C6_partial_payment exPayPart 1 [1] 1 50 exDB 60 rfl rfl).1
      3 (create_sale_deductions exPayPart 1 [1] 1 50 exDB)
      (create_sale_state exPayPart 1 [1] 1 50 exDB)
      (by with_unfolding_all decide) (by with_unfolding_all decide) rfl
      (by with_unfolding_all decide) (by with_unfolding_all decide)
      (by with_unfolding_all rfl)
  · exact (C6_partial_payment exPayOver 1 [1] 1 50 exDB 120 rfl rfl).2
      (by with_unfolding_all decide) (by with_unfolding_all decide)
      (by with_unfolding_all decide) exProd
      (by with_unfolding_all decide) (by with_unfolding_all decide)

/-- C7 counterexample: for the credit sale `exPayCred` (total 100, upfront
30, customer `Ama`) the orchestrator records the debt transaction with amount
100 — the full total price — together with a payment transaction of 30; the
debt entry's amount is not the remainder 70, refuting the claim as stated. -/
theorem C7_counterexample :
    ((create_sale_state exPayCred 1 [1] 1 50 exDB).credit_transactions.map
      (fun t => (t.amount, t.transaction_type)))
      = [(100, "debt"), (30, "payment")] ∧
    exPayCred.total_price - (exPayCred.amount_paid.getD 0) = 70 ∧
    (100 : Qty) ≠ 70 := by
  refine ⟨?_, ?_, ?_⟩ <;> with_unfolding_all decide

theorem foldl_deductStep_next_id (uid : Nat) (uids : List Nat) (branch : Nat)
    (product : Product) (p : SaleCreate) (sid : Nat) (db : DB)
    (bts : List (BatchBalance × Qty)) (acc : DB × List DeductedBatch) :
    acc.1.next_id ≤
      ((bts.foldl (deductStep uid uids branch product p sid db) acc).1).next_id := by
  induction bts generalizing acc with
  | nil => exact le_refl _
  | cons b bs ih =>
    rw [List.foldl_cons]
    have h1 : acc.1.next_id ≤
        (deductStep uid uids branch product p sid db acc b).1.next_id :=
      Nat.le_succ _
    exact le_trans h1 (ih _)

theorem deduct_stock_next_id (uid : Nat) (uids : List Nat) (branch : Nat)
    (product : Product) (p : SaleCreate) (sid : Nat) (today : Day) (db : DB) :
    db.next_id ≤ (deduct_stock uid uids branch product p sid today db).1.next_id := by
  unfold deduct_stock
  dsimp only
  split_ifs
  · exact le_trans
      (foldl_deductStep_next_id uid uids branch product p sid db _ (db, []))
      (Nat.le_succ _)
  · exact foldl_deductStep_next_id uid uids branch product p sid db _ (db, [])

/-- C7 amended: for a credit sale carrying a positive upfront `amountPaid`
(and a truthy customer name, positive total), the orchestrator records a debt
transaction for the FULL `totalPrice` and a payment transaction for the
upfront `amountPaid` — not a debt for the remainder — so the creditor's
exposure rises by the remainder `totalPrice − amountPaid`. -/
theorem C7_credit_upfront_amended (p : SaleCreate) (uid : Nat)
    (uids : List Nat) (branch : Nat) (today : Day) (db0 : DB) (a : Qty)
    (sid : Nat) (d : List DeductedBatch) (db' : DB)
    (hpm : p.payment_method = "credit")
    (ha : p.amount_paid = some a)
    (hapos : 0 < a)
    (hcust : strTruthy p.customer_name = true)
    (htot : 0 < p.total_price)
    (hids : (db0.creditors.map (·.id)).Nodup)
    (hfresh : ∀ c ∈ db0.creditors, c.id < db0.next_id)
    (hrep : find_existing_sale p uids branch
      (writeoff_expired_batches db0 uid uids branch (some p.product_id) today).2
      = none)
    (h : create_sale p uid uids branch today db0 = .ok (sid, d, db')) :
    (∃ tid1 tid2 cid, db'.credit_transactions = db0.credit_transactions ++
      [⟨tid1, uid, branch, cid, some sid, p.total_price, "debt"⟩,
       ⟨tid2, uid, branch, cid, some sid, a, "payment"⟩]) ∧
    creditorDebtSum db' = creditorDebtSum db0 + (p.total_price - a) := by
  obtain ⟨product, hp, hav, hsid, hd, hcstage⟩ :=
    create_sale_ok_build p uid uids branch today db0 sid d db' hrep h
  unfold credit_stage at hcstage
  rw [if_pos (by simp [hpm])] at hcstage
  rw [Except.ok.injEq] at hcstage
  have hcr : (deduct_stock uid uids branch product p sid today
      (afterSaleInsert p uid branch
        (writeoff_expired_batches db0 uid uids branch (some p.product_id) today).2)).1.creditors
      = db0.creditors := by
    rw [(deduct_stock_frame uid uids branch product p sid today _).2.2.1]
    exact (writeoff_frame db0 uid uids branch (some p.product_id) today).2.2.1
  have hct : (deduct_stock uid uids branch product p sid today
      (afterSaleInsert p uid branch
        (writeoff_expired_batches db0 uid uids branch (some p.product_id) today).2)).1.credit_transactions
      = db0.credit_transactions := by
    rw [(deduct_stock_frame uid uids branch product p sid today _).2.2.2.1]
    exact (writeoff_frame db0 uid uids branch (some p.product_id) today).2.2.2.1
  have hfresh' : ∀ c ∈ (deduct_stock uid uids branch product p sid today
      (afterSaleInsert p uid branch
        (writeoff_expired_batches db0 uid uids branch (some p.product_id) today).2)).1.creditors,
      c.id < (deduct_stock uid uids branch product p sid today
        (afterSaleInsert p uid branch
          (writeoff_expired_batches db0 uid uids branch (some p.product_id) today).2)).1.next_id := by
    rw [hcr]
    intro c hc
    have h1 : c.id < db0.next_id := hfresh c hc
    have h2 : db0.next_id ≤
        (writeoff_expired_batches db0 uid uids branch (some p.product_id) today).2.next_id :=
      Nat.le_add_right _ _
    have h3 : (writeoff_expired_batches db0 uid uids branch (some p.product_id) today).2.next_id ≤
        (afterSaleInsert p uid branch
          (writeoff_expired_batches db0 uid uids branch (some p.product_id) today).2).next_id :=
      Nat.le_succ _
    have h4 := deduct_stock_next_id uid uids branch product p sid today
      (afterSaleInsert p uid branch
        (writeoff_expired_batches db0 uid uids branch (some p.product_id) today).2)
    omega
  obtain ⟨htx, hsum⟩ := record_credit_credit_effect p sid uid uids branch
    (deduct_stock uid uids branch product p sid today
      (afterSaleInsert p uid branch
        (writeoff_expired_batches db0 uid uids branch (some p.product_id) today).2)).1
    p.total_price a ha hapos hpm hcust htot (by rw [hcr]; exact hids) hfresh'
  constructor
  · rw [← hcstage]
    rw [hct] at htx
    exact htx
  · rw [← hcstage, hsum]
    unfold creditorDebtSum
    rw [hcr]

/-- C7 witness: the credit sale `exPayCred` (total 100, upfront 30) records a
debt of the full 100 and a payment of 30 against the same creditor, raising
the creditor exposure by the remainder 70. -/
theorem C7_witness :
    (∃ tid1 tid2 cid,
      (create_sale_state exPayCred 1 [1] 1 50 exDB).credit_transactions
        = exDB.credit_transactions ++
          [⟨tid1, 1, 1, cid, some 3, exPayCred.total_price, "debt"⟩,
           ⟨tid2, 1, 1, cid, some 3, 30, "payment"⟩]) ∧
    creditorDebtSum (create_sale_state exPayCred 1 [1] 1 50 exDB)
      = creditorDebtSum exDB + (exPayCred.total_price - 30) :=
  C7_credit_upfront_amended exPayCred 1 [1] 1 50 exDB 30
    3 (create_sale_deductions exPayCred 1 [1] 1 50 exDB)
    (create_sale_state exPayCred 1 [1] 1 50 exDB)
    rfl rfl (by with_unfolding_all decide) (by with_unfolding_all decide)
    (by with_unfolding_all decide) (by with_unfolding_all decide)
    (by with_unfolding_all decide) (by with_unfolding_all decide)
    (by with_unfolding_all rfl)

theorem foldl_deductStep_avail (uid : Nat) (uids : List Nat) (branch : Nat)
    (product : Product) (p : SaleCreate) (sid : Nat) (db : DB)
    (huid : uid ∈ uids)
    (bts : List (BatchBalance × Qty)) (acc : DB × List DeductedBatch) :
    available_stock ((bts.foldl (deductStep uid uids branch product p sid db) acc).1)
        uids branch p.product_id
      = available_stock acc.1 uids branch p.product_id -
          ((bts.map fun bt => bt.2).sum) := by
  induction bts generalizing acc with
  | nil => simp
  | cons b bs ih =>
    rw [List.foldl_cons, ih]
    have hstep : available_stock
        (deductStep uid uids branch product p sid db acc b).1
          uids branch p.product_id
        = available_stock acc.1 uids branch p.product_id + (-b.2) := by
      unfold deductStep available_stock DB.productMovements
      dsimp only
      rw [List.filter_append]
      simp [List.filter_cons, List.contains_eq_any_beq, List.any_beq,
        List.elem_iff, huid]
    rw [hstep, List.map_cons, List.sum_cons]
    ring

theorem deduct_stock_available (uid : Nat) (uids : List Nat) (branch : Nat)
    (product : Product) (p : SaleCreate) (sid : Nat) (today : Day) (db : DB)
    (huid : uid ∈ uids) (hq : 0 ≤ p.quantity) :
    available_stock (deduct_stock uid uids branch product p sid today db).1
        uids branch p.product_id
      = available_stock db uids branch p.product_id - p.quantity := by
  obtain ⟨hsum, hrem⟩ := allocateLoop_sum
    (available_batches db uids branch p.product_id today) p.quantity hq
  have hbase := foldl_deductStep_avail uid uids branch product p sid db huid
    (allocateLoop (available_batches db uids branch p.product_id today)
      p.quantity).1 (db, [])
  unfold deduct_stock
  dsimp only
  split_ifs with h
  · unfold available_stock DB.productMovements at hbase ⊢
    dsimp only at hbase ⊢
    rw [List.filter_append]
    simp only [List.map_append, List.sum_append]
    rw [hbase, hsum]
    simp [List.filter_cons, List.contains_eq_any_beq, List.any_beq,
      List.elem_iff, huid]
    ring
  · have h0 : (allocateLoop (available_batches db uids branch p.product_id today)
        p.quantity).2 = 0 := le_antisymm (not_lt.mp h) hrem
    rw [hbase, hsum, h0]
    ring

theorem credit_stage_no_customer (p : SaleCreate) (sid uid : Nat)
    (uids : List Nat) (branch : Nat) (db db2 : DB)
    (hcust : strTruthy p.customer_name = false)
    (h : credit_stage p sid uid uids branch db = .ok db2) : db2 = db := by
  unfold credit_stage at h
  split_ifs at h with h1 h2
  · rw [record_credit_no_customer p sid uid uids branch db _ hcust] at h
    injection h with h'
    exact h'.symm
  · dsimp only at h
    split_ifs at h with h3
    rw [record_credit_no_customer p sid uid uids branch db _ hcust] at h
    injection h with h'
    exact h'.symm
  · injection h with h'
    exact h'.symm

/-- C10 (implicit): a credit or partial sale with a positive credit amount
but no customer name succeeds and deducts the full quantity from stock, while
the creditor ledger stays completely untouched — no creditor row and no
credit transaction is created or modified. -/
theorem C10_no_customer_skips_creditor_ledger (p : SaleCreate) (uid : Nat)
    (uids : List Nat) (branch : Nat) (today : Day) (db0 : DB) (sid : Nat)
    (d : List DeductedBatch) (db' : DB)
    (hcust : strTruthy p.customer_name = false)
    (_hca : 0 < credit_amount_of p)
    (huid : uid ∈ uids)
    (hq : 0 ≤ p.quantity)
    (hrep : find_existing_sale p uids branch
      (writeoff_expired_batches db0 uid uids branch (some p.product_id) today).2
      = none)
    (h : create_sale p uid uids branch today db0 = .ok (sid, d, db')) :
    db'.creditors = db0.creditors ∧
    db'.credit_transactions = db0.credit_transactions ∧
    available_stock db' uids branch p.product_id =
      available_stock
        (writeoff_expired_batches db0 uid uids branch (some p.product_id) today).2
        uids branch p.product_id - p.quantity := by
  obtain ⟨product, hp, hav, hsid, hd, hcstage⟩ :=
    create_sale_ok_build p uid uids branch today db0 sid d db' hrep h
  have hdb' : db' = (deduct_stock uid uids branch product p sid today
      (afterSaleInsert p uid branch
        (writeoff_expired_batches db0 uid uids branch (some p.product_id) today).2)).1 :=
    credit_stage_no_customer p sid uid uids branch _ db' hcust hcstage
  subst hdb'
  refine ⟨?_, ?_, ?_⟩
  · rw [(deduct_stock_frame uid uids branch product p sid today _).2.2.1]
    exact (writeoff_frame db0 uid uids branch (some p.product_id) today).2.2.1
  · rw [(deduct_stock_frame uid uids branch product p sid today _).2.2.2.1]
    exact (writeoff_frame db0 uid uids branch (some p.product_id) today).2.2.2.1
  · rw [deduct_stock_available uid uids branch product p sid today _ huid hq]
    rfl

/-- C10 witness: the partial sale without a customer name succeeds, deducts
its 5 units from stock, and leaves creditors and credit transactions exactly
as before. -/
theorem C10_witness :
    (create_sale_state exPayPartNoCust 1 [1] 1 50 exDB).creditors
      = exDB.creditors ∧
    (create_sale_state exPayPartNoCust 1 [1] 1 50 exDB).credit_transactions
      = exDB.credit_transactions ∧
    available_stock (create_sale_state exPayPartNoCust 1 [1] 1 50 exDB)
        [1] 1 exPayPartNoCust.product_id =
      available_stock
        (writeoff_expired_batches exDB 1 [1] 1
          (some exPayPartNoCust.product_id) 50).2
        [1] 1 exPayPartNoCust.product_id - exPayPartNoCust.quantity :=
  C10_no_customer_skips_creditor_ledger exPayPartNoCust 1 [1] 1 50 exDB 3
    (create_sale_deductions exPayPartNoCust 1 [1] 1 50 exDB)
    (create_sale_state exPayPartNoCust 1 [1] 1 50 exDB)
    rfl (by with_unfolding_all decide) (by with_unfolding_all decide)
    (by with_unfolding_all decide) (by with_unfolding_all decide)
    (by with_unfolding_all rfl)

/-! ### Write-off engine lemmas -/

theorem filter_key_eq_singleton {α κ : Type} [BEq κ] [LawfulBEq κ] (g : α → κ)
    (l : List α) (x : α) (hn : (l.map g).Nodup) (hx : x ∈ l) :
    l.filter (fun y => g y == g x) = [x] := by
  induction l with
  | nil => cases hx
  | cons a l ih =>
    rw [List.map_cons, List.nodup_cons] at hn
    rw [List.mem_cons] at hx
    rw [List.filter_cons]
    rcases hx with rfl | hx
    · rw [if_pos (by simp)]
      have h0 : l.filter (fun y => g y == g x) = [] := by
        rw [List.filter_eq_nil_iff]
        intro y hy
        simp only [beq_iff_eq]
        intro hEq
        refine hn.1 ?_
        rw [← hEq]
        exact List.mem_map_of_mem g hy
      rw [h0]
    · rw [if_neg ?hne]
      · exact ih hn.2 hx
      case hne =>
        simp only [beq_iff_eq]
        intro hEq
        refine hn.1 ?_
        rw [hEq]
        exact List.mem_map_of_mem g hx

theorem mkExpiredMovement_woKey (db : DB) (A : Nat) (uids : List Nat)
    (branch : Nat) (kb : (Nat × String × Option Day × Option String) × Qty)
    (seq : Nat) :
    woKey (mkExpiredMovement db A uids branch kb.1.1 kb.1.2.1 kb.1.2.2.1
      kb.1.2.2.2 kb.2 seq) = keyNorm kb := rfl

theorem groupOfKey_key (rows : List StockMovement)
    (k : Nat × Option String × Option Day × Option String)
    (kb : (Nat × String × Option Day × Option String) × Qty)
    (h : groupOfKey rows k = some kb) :
    keyOfGroup kb = k ∧ kb.2 = woBalance rows k ∧ 0 < kb.2 := by
  obtain ⟨pid, ob, exp, loc⟩ := k
  cases ob with
  | none => exact absurd h (by simp [groupOfKey])
  | some bn =>
    unfold groupOfKey at h
    split_ifs at h with hb
    rw [Option.some.injEq] at h
    subst h
    exact ⟨rfl, rfl, hb⟩

theorem filterMap_keyrec_nodup {β κ : Type} (f : κ → Option β) (g : β → κ)
    (hrec : ∀ k b, f k = some b → g b = k) :
    ∀ ks : List κ, ks.Nodup →
      ((ks.filterMap f).map g).Nodup ∧ ∀ b ∈ ks.filterMap f, g b ∈ ks := by
  intro ks
  induction ks with
  | nil => intro _; exact ⟨List.nodup_nil, by simp⟩
  | cons k ks ih =>
    intro hn
    rw [List.nodup_cons] at hn
    obtain ⟨ihn, ihmem⟩ := ih hn.2
    rw [List.filterMap_cons]
    cases hf : f k with
    | none =>
      exact ⟨ihn, fun b hb => List.mem_cons_of_mem _ (ihmem b hb)⟩
    | some b =>
      rw [List.map_cons]
      constructor
      · rw [List.nodup_cons]
        refine ⟨?_, ihn⟩
        intro hmem
        rw [List.mem_map] at hmem
        obtain ⟨b', hb', hEq⟩ := hmem
        have hb'mem := ihmem b' hb'
        rw [hEq, hrec k b hf] at hb'mem
        exact hn.1 hb'mem
      · intro b' hb'
        rw [List.mem_cons] at hb'
        rcases hb' with rfl | hb'
        · rw [hrec k b' hf]
          exact List.mem_cons_self _ _
        · exact List.mem_cons_of_mem _ (ihmem b' hb')

theorem writeoffMs_forward (db : DB) (A : Nat) (uids : List Nat) (branch : Nat)
    (gs : List ((Nat × String × Option Day × Option String) × Qty))
    (base : Nat) :
    ∀ mv ∈ (gs.enumFrom base).map (fun ikb =>
      mkExpiredMovement db A uids branch ikb.2.1.1 ikb.2.1.2.1 ikb.2.1.2.2.1
        ikb.2.1.2.2.2 ikb.2.2 (db.next_id + ikb.1)),
      ∃ kb ∈ gs, ∃ seq, mv = mkExpiredMovement db A uids branch kb.1.1 kb.1.2.1
        kb.1.2.2.1 kb.1.2.2.2 kb.2 seq := by
  induction gs generalizing base with
  | nil => intro mv h; simp at h
  | cons kb gs ih =>
    intro mv h
    rw [List.enumFrom_cons, List.map_cons, List.mem_cons] at h
    rcases h with rfl | h
    · exact ⟨kb, List.mem_cons_self _ _, _, rfl⟩
    · obtain ⟨kb', hkb', seq, rfl⟩ := ih (base + 1) mv h
      exact ⟨kb', List.mem_cons_of_mem _ hkb', seq, rfl⟩

theorem writeoffMs_backward (db : DB) (A : Nat) (uids : List Nat) (branch : Nat)
    (gs : List ((Nat × String × Option Day × Option String) × Qty))
    (base : Nat) :
    ∀ kb ∈ gs, ∃ seq, (mkExpiredMovement db A uids branch kb.1.1 kb.1.2.1
        kb.1.2.2.1 kb.1.2.2.2 kb.2 seq) ∈
      (gs.enumFrom base).map (fun ikb =>
        mkExpiredMovement db A uids branch ikb.2.1.1 ikb.2.1.2.1 ikb.2.1.2.2.1
          ikb.2.1.2.2.2 ikb.2.2 (db.next_id + ikb.1)) := by
  induction gs generalizing base with
  | nil => intro kb h; cases h
  | cons kb0 gs ih =>
    intro kb h
    rw [List.mem_cons] at h
    rcases h with rfl | h
    · refine ⟨db.next_id + base, ?_⟩
      rw [List.enumFrom_cons, List.map_cons]
      exact List.mem_cons_self _ _
    · obtain ⟨seq, hseq⟩ := ih (base + 1) kb h
      refine ⟨seq, ?_⟩
      rw [List.enumFrom_cons, List.map_cons]
      exact List.mem_cons_of_mem _ hseq

theorem expiredPositiveGroups_spec (db : DB) (uids : List Nat) (branch : Nat)
    (pid? : Option Nat) (today : Day) :
    ∀ kb ∈ expiredPositiveGroups db uids branch pid? today,
      keyOfGroup kb ∈ ((db.movements.filter
          (expiredRowFilter uids branch pid? today)).map woKey) ∧
      kb.2 = woBalance
        (db.movements.filter (expiredRowFilter uids branch pid? today))
        (keyOfGroup kb) ∧
      0 < kb.2 := by
  intro kb hkb
  unfold expiredPositiveGroups at hkb
  dsimp only at hkb
  rw [List.mem_filterMap] at hkb
  obtain ⟨k, hk, hfk⟩ := hkb
  obtain ⟨hkey, hbal, hpos⟩ := groupOfKey_key _ k kb hfk
  subst hkey
  exact ⟨List.mem_dedup.mp hk, hbal, hpos⟩

theorem expiredPositiveGroups_row (db : DB) (uids : List Nat) (branch : Nat)
    (pid? : Option Nat) (today : Day) :
    ∀ kb ∈ expiredPositiveGroups db uids branch pid? today,
      ∃ m, m ∈ db.movements ∧
        expiredRowFilter uids branch pid? today m = true ∧
        woKey m = keyOfGroup kb := by
  intro kb hkb
  obtain ⟨hmem, -, -⟩ :=
    expiredPositiveGroups_spec db uids branch pid? today kb hkb
  rw [List.mem_map] at hmem
  obtain ⟨m, hm, hwo⟩ := hmem
  rw [List.mem_filter] at hm
  exact ⟨m, hm.1, hm.2, hwo⟩

theorem expiredPositiveGroups_keys_nodup (db : DB) (uids : List Nat)
    (branch : Nat) (pid? : Option Nat) (today : Day) :
    ((expiredPositiveGroups db uids branch pid? today).map keyOfGroup).Nodup :=
  (filterMap_keyrec_nodup
    (groupOfKey (db.movements.filter (expiredRowFilter uids branch pid? today)))
    keyOfGroup
    (fun k b hb => (groupOfKey_key _ k b hb).1)
    (((db.movements.filter
      (expiredRowFilter uids branch pid? today)).map woKey).dedup)
    (List.nodup_dedup _)).1

theorem keyNorm_eq_keyOfGroup (db : DB) (uids : List Nat) (branch : Nat)
    (pid? : Option Nat) (today : Day) (hloc : LocationsNormal db) :
    ∀ kb ∈ expiredPositiveGroups db uids branch pid? today,
      keyNorm kb = keyOfGroup kb := by
  intro kb hkb
  obtain ⟨m, hm, -, hwo⟩ :=
    expiredPositiveGroups_row db uids branch pid? today kb hkb
  unfold woKey keyOfGroup at hwo
  rw [Prod.mk.injEq, Prod.mk.injEq, Prod.mk.injEq] at hwo
  obtain ⟨-, -, -, hwloc⟩ := hwo
  unfold keyNorm keyOfGroup
  rw [Prod.mk.injEq, Prod.mk.injEq, Prod.mk.injEq]
  refine ⟨rfl, rfl, rfl, ?_⟩
  rw [← hwloc]
  exact (hloc m hm).symm

theorem woBalance_append (r1 r2 : List StockMovement)
    (k : Nat × Option String × Option Day × Option String) :
    woBalance (r1 ++ r2) k = woBalance r1 k + woBalance r2 k := by
  unfold woBalance
  rw [List.filter_append, List.map_append, List.sum_append]

theorem woBalance_zero_of_not_mem (rows : List StockMovement)
    (k : Nat × Option String × Option Day × Option String)
    (h : k ∉ rows.map woKey) : woBalance rows k = 0 := by
  unfold woBalance
  have hnil : rows.filter (fun m => woKey m == k) = [] := by
    rw [List.filter_eq_nil_iff]
    intro m hm
    simp only [beq_iff_eq]
    intro hEq
    exact h (hEq ▸ List.mem_map_of_mem woKey hm)
  rw [hnil]
  rfl

theorem woBalance_writeoffMs (db : DB) (A : Nat) (uids : List Nat)
    (branch : Nat)
    (gs : List ((Nat × String × Option Day × Option String) × Qty))
    (base : Nat) (k : Nat × Option String × Option Day × Option String) :
    woBalance ((gs.enumFrom base).map (fun ikb =>
        mkExpiredMovement db A uids branch ikb.2.1.1 ikb.2.1.2.1 ikb.2.1.2.2.1
          ikb.2.1.2.2.2 ikb.2.2 (db.next_id + ikb.1))) k
      = -(((gs.filter fun kb => keyNorm kb == k).map (·.2)).sum) := by
  induction gs generalizing base with
  | nil => simp [woBalance]
  | cons kb gs ih =>
    rw [List.enumFrom_cons, List.map_cons]
    unfold woBalance
    rw [List.filter_cons]
    by_cases hk : (keyNorm kb == k) = true
    · rw [if_pos (by exact hk)]
      rw [List.map_cons, List.sum_cons]
      have hrec := ih (base + 1)
      unfold woBalance at hrec
      rw [hrec]
      rw [List.filter_cons, if_pos hk, List.map_cons, List.sum_cons]
      simp only [mkExpiredMovement]
      ring
    · rw [if_neg (by exact hk)]
      have hrec := ih (base + 1)
      unfold woBalance at hrec
      rw [hrec]
      rw [List.filter_cons, if_neg hk]

theorem writeoffMovements_pass_filter (db : DB) (A : Nat) (uids : List Nat)
    (branch : Nat) (pid? : Option Nat) (today : Day) (huid : A ∈ uids) :
    ∀ mv ∈ writeoffMovements db A uids branch pid? today,
      expiredRowFilter uids branch pid? today mv = true := by
  intro mv hmv
  obtain ⟨kb, hkb, seq, rfl⟩ := writeoffMs_forward db A uids branch
    (expiredPositiveGroups db uids branch pid? today) 0 mv hmv
  obtain ⟨m, hmem, hF, hwo⟩ :=
    expiredPositiveGroups_row db uids branch pid? today kb hkb
  unfold woKey keyOfGroup at hwo
  rw [Prod.mk.injEq, Prod.mk.injEq, Prod.mk.injEq] at hwo
  obtain ⟨hw1, hw2, hw3, hw4⟩ := hwo
  unfold expiredRowFilter at hF ⊢
  simp only [Bool.and_eq_true] at hF
  obtain ⟨⟨⟨⟨-, -⟩, -⟩, hFe⟩, hFp⟩ := hF
  simp only [mkExpiredMovement, Bool.and_eq_true]
  refine ⟨⟨⟨⟨by simp, ?_⟩, by simp⟩, ?_⟩, ?_⟩
  · simp only [List.contains_eq_any_beq, List.any_beq, List.elem_iff]
    exact huid
  · rw [← hw3]
    exact hFe
  · cases pid? with
    | none => rfl
    | some pid0 =>
      dsimp only at hFp ⊢
      rw [← hw1]
      exact hFp

theorem writeoff_of_no_groups (dbx : DB) (A : Nat) (uids : List Nat)
    (branch : Nat) (pid? : Option Nat) (today : Day)
    (h : expiredPositiveGroups dbx uids branch pid? today = []) :
    writeoff_expired_batches dbx A uids branch pid? today = (0, dbx) := by
  unfold writeoff_expired_batches writeoffMovements
  rw [h]
  simp

theorem woBalance_writeoffMovements (db : DB) (A : Nat) (uids : List Nat)
    (branch : Nat) (pid? : Option Nat) (today : Day)
    (k : Nat × Option String × Option Day × Option String) :
    woBalance (writeoffMovements db A uids branch pid? today) k
      = -((((expiredPositiveGroups db uids branch pid? today).filter
          (fun kb => keyNorm kb == k)).map (·.2)).sum) := by
  unfold writeoffMovements
  exact woBalance_writeoffMs db A uids branch _ 0 k

theorem writeoff_second_run_empty (db : DB) (A : Nat) (uids : List Nat)
    (branch : Nat) (pid? : Option Nat) (today : Day)
    (hloc : LocationsNormal db) (huid : A ∈ uids) :
    expiredPositiveGroups
      (writeoff_expired_batches db A uids branch pid? today).2
      uids branch pid? today = [] := by
  have hmv2 : (writeoff_expired_batches db A uids branch pid? today).2.movements
      = db.movements ++ writeoffMovements db A uids branch pid? today := rfl
  have hrows2 : (writeoff_expired_batches db A uids branch pid? today).2.movements.filter
        (expiredRowFilter uids branch pid? today)
      = db.movements.filter (expiredRowFilter uids branch pid? today)
        ++ writeoffMovements db A uids branch pid? today := by
    rw [hmv2, List.filter_append]
    rw [List.filter_eq_self.mpr
      (writeoffMovements_pass_filter db A uids branch pid? today huid)]
  unfold expiredPositiveGroups
  dsimp only
  rw [List.filterMap_eq_nil_iff]
  intro k hk
  obtain ⟨pid, ob, exp, loc⟩ := k
  cases ob with
  | none => rfl
  | some bn =>
    unfold groupOfKey
    dsimp only
    rw [if_neg ?hbal]
    case hbal =>
      rw [hrows2, woBalance_append,
        woBalance_writeoffMovements db A uids branch pid? today
          (pid, some bn, exp, loc)]
      have hfc : (expiredPositiveGroups db uids branch pid? today).filter
            (fun kb => keyNorm kb == (pid, some bn, exp, loc))
          = (expiredPositiveGroups db uids branch pid? today).filter
            (fun kb => keyOfGroup kb == (pid, some bn, exp, loc)) :=
        List.filter_congr (fun kb hkb => by
          rw [keyNorm_eq_keyOfGroup db uids branch pid? today hloc kb hkb])
      rw [hfc]
      by_cases hpos : 0 < woBalance
          (db.movements.filter (expiredRowFilter uids branch pid? today))
          (pid, some bn, exp, loc)
      · -- this key was a positive group: its compensating movement zeroes it
        have hkmem : (pid, some bn, exp, loc) ∈
            ((db.movements.filter (expiredRowFilter uids branch pid? today)).map
              woKey) := by
          by_contra hno
          rw [woBalance_zero_of_not_mem _ _ hno] at hpos
          exact lt_irrefl 0 hpos
        have hgk : groupOfKey
            (db.movements.filter (expiredRowFilter uids branch pid? today))
            (pid, some bn, exp, loc)
            = some ((pid, bn, exp, loc), woBalance
                (db.movements.filter (expiredRowFilter uids branch pid? today))
                (pid, some bn, exp, loc)) := by
          unfold groupOfKey
          dsimp only
          rw [if_pos hpos]
        have hgmem : ((pid, bn, exp, loc), woBalance
            (db.movements.filter (expiredRowFilter uids branch pid? today))
            (pid, some bn, exp, loc)) ∈
            expiredPositiveGroups db uids branch pid? today := by
          unfold expiredPositiveGroups
          dsimp only
          rw [List.mem_filterMap]
          exact ⟨(pid, some bn, exp, loc), List.mem_dedup.mpr hkmem, hgk⟩
        have hsingle : (expiredPositiveGroups db uids branch pid? today).filter
            (fun kb => keyOfGroup kb == (pid, some bn, exp, loc))
            = [((pid, bn, exp, loc), woBalance
                (db.movements.filter (expiredRowFilter uids branch pid? today))
                (pid, some bn, exp, loc))] := by
          have := filter_key_eq_singleton keyOfGroup
            (expiredPositiveGroups db uids branch pid? today)
            ((pid, bn, exp, loc), woBalance
              (db.movements.filter (expiredRowFilter uids branch pid? today))
              (pid, some bn, exp, loc))
            (expiredPositiveGroups_keys_nodup db uids branch pid? today) hgmem
          exact this
        rw [hsingle]
        simp
      · -- non-positive balance, and no group writes to this key
        have hnil : (expiredPositiveGroups db uids branch pid? today).filter
            (fun kb => keyOfGroup kb == (pid, some bn, exp, loc)) = [] := by
          rw [List.filter_eq_nil_iff]
          intro kb hkb
          simp only [beq_iff_eq]
          intro hEq
          obtain ⟨-, hbal, hposkb⟩ :=
            expiredPositiveGroups_spec db uids branch pid? today kb hkb
          rw [hEq] at hbal
          rw [hbal] at hposkb
          exact hpos hposkb
        rw [hnil]
        simp
        exact not_lt.mp hpos

/-- C4: for every group of movements sharing (product, batch_number,
expiry_date, location) with a non-null batch number and an expiry date
strictly before today whose summed balance is strictly positive, the expiry
write-off engine appends exactly one compensating movement with delta
`-balance`, reason `"Expired"`, carrying the batch's most recent
positive-movement unit cost; the run creates exactly one movement per such
group, and running the engine a second time immediately afterwards creates
zero further movements and leaves the state unchanged.  The hypotheses:
the actor belongs to the tenant (`tenant_user_ids` always contains the
caller), and every stored movement's location is already in normal form
(non-empty; every insert path of the application stores `location or
"Main Store"`). -/
theorem C4_expiry_writeoff (db : DB) (A : Nat) (uids : List Nat)
    (branch : Nat) (pid? : Option Nat) (today : Day)
    (hloc : LocationsNormal db) (huid : A ∈ uids) :
    (writeoff_expired_batches db A uids branch pid? today).1
      = (expiredPositiveGroups db uids branch pid? today).length ∧
    (∀ kb ∈ expiredPositiveGroups db uids branch pid? today,
      ∃ mv ∈ (writeoff_expired_batches db A uids branch pid? today).2.movements,
        mv.product_id = kb.1.1 ∧ mv.batch_number = some kb.1.2.1 ∧
        mv.expiry_date = kb.1.2.2.1 ∧ mv.change = -kb.2 ∧
        mv.reason = "Expired" ∧
        mv.unit_cost_price
          = latest_positive_unit_cost db uids branch kb.1.1 kb.1.2.1) ∧
    writeoff_expired_batches
      (writeoff_expired_batches db A uids branch pid? today).2
      A uids branch pid? today
      = (0, (writeoff_expired_batches db A uids branch pid? today).2) := by
  refine ⟨?_, ?_, ?_⟩
  · simp [writeoff_expired_batches, writeoffMovements]
  · intro kb hkb
    obtain ⟨seq, hmem⟩ := writeoffMs_backward db A uids branch _ 0 kb hkb
    refine ⟨mkExpiredMovement db A uids branch kb.1.1 kb.1.2.1 kb.1.2.2.1
      kb.1.2.2.2 kb.2 seq, ?_, rfl, rfl, rfl, rfl, rfl, rfl⟩
    show _ ∈ db.movements ++ writeoffMovements db A uids branch pid? today
    exact List.mem_append_right _ hmem
  · exact writeoff_of_no_groups _ A uids branch pid? today
      (writeoff_second_run_empty db A uids branch pid? today hloc huid)

/-- Witness for C4: at `today = 150`, batch `A` of `exDB` (balance 10,
expiry day 100) is expired; the engine creates one `-10` movement reason
`"Expired"` with unit cost 5, and a second run creates nothing. -/
theorem C4_witness :
    LocationsNormal exDB ∧ (1 : Nat) ∈ [1] ∧
    ((writeoff_expired_batches exDB 1 [1] 1 none 150).1
        = (expiredPositiveGroups exDB [1] 1 none 150).length ∧
      (∀ kb ∈ expiredPositiveGroups exDB [1] 1 none 150,
        ∃ mv ∈ (writeoff_expired_batches exDB 1 [1] 1 none 150).2.movements,
          mv.product_id = kb.1.1 ∧ mv.batch_number = some kb.1.2.1 ∧
          mv.expiry_date = kb.1.2.2.1 ∧ mv.change = -kb.2 ∧
          mv.reason = "Expired" ∧
          mv.unit_cost_price
            = latest_positive_unit_cost exDB [1] 1 kb.1.1 kb.1.2.1) ∧
      writeoff_expired_batches
        (writeoff_expired_batches exDB 1 [1] 1 none 150).2 1 [1] 1 none 150
        = (0, (writeoff_expired_batches exDB 1 [1] 1 none 150).2)) :=
  ⟨by with_unfolding_all decide, by decide,
   C4_expiry_writeoff exDB 1 [1] 1 none 150
     (by with_unfolding_all decide) (by decide)⟩

theorem reverse_cancels_forward (cs : List Creditor) (t : CreditTransaction) :
    reverseTxnStep (applyTxnForward cs t) t = cs := by
  unfold reverseTxnStep applyTxnForward
  rw [List.map_map]
  conv_rhs => rw [← List.map_id cs]
  refine List.map_congr_left ?_
  intro c _
  obtain ⟨cid, cuid, cbid, cname, ctd⟩ := c
  simp only [Function.comp_apply, id_eq]
  by_cases hid : (cid == t.creditor_id) = true
  · rw [if_pos hid]
    dsimp only
    rw [if_pos hid]
    by_cases hty : (t.transaction_type == "debt") = true
    · simp only [if_pos hty]
      have h : ctd + t.amount - t.amount = ctd := by ring
      rw [h]
    · simp only [if_neg hty]
      have h : ctd - t.amount + t.amount = ctd := by ring
      rw [h]
  · rw [if_neg hid]
    dsimp only
    rw [if_neg hid]

theorem reverse_forward_comm (cs : List Creditor) (s t : CreditTransaction) :
    reverseTxnStep (applyTxnForward cs s) t
      = applyTxnForward (reverseTxnStep cs t) s := by
  unfold reverseTxnStep applyTxnForward
  rw [List.map_map, List.map_map]
  refine List.map_congr_left ?_
  intro c _
  obtain ⟨cid, cuid, cbid, cname, ctd⟩ := c
  simp only [Function.comp_apply]
  by_cases hs : (cid == s.creditor_id) = true
  · rw [if_pos hs]
    dsimp only
    by_cases ht : (cid == t.creditor_id) = true
    · rw [if_pos ht, if_pos ht]
      dsimp only
      rw [if_pos hs]
      by_cases hts : (s.transaction_type == "debt") = true
      · simp only [if_pos hts]
        by_cases htt : (t.transaction_type == "debt") = true
        · simp only [if_pos htt]
          exact congrArg (Creditor.mk cid cuid cbid cname) (by ring)
        · simp only [if_neg htt]
          exact congrArg (Creditor.mk cid cuid cbid cname) (by ring)
      · simp only [if_neg hts]
        by_cases htt : (t.transaction_type == "debt") = true
        · simp only [if_pos htt]
          exact congrArg (Creditor.mk cid cuid cbid cname) (by ring)
        · simp only [if_neg htt]
          exact congrArg (Creditor.mk cid cuid cbid cname) (by ring)
    · rw [if_neg ht, if_neg ht]
      dsimp only
      rw [if_pos hs]
  · rw [if_neg hs]
    dsimp only
    by_cases ht : (cid == t.creditor_id) = true
    · rw [if_pos ht]
      dsimp only
      rw [if_neg hs]
    · rw [if_neg ht]
      dsimp only
      rw [if_neg hs]

theorem reverse_foldl_forward_comm (ts : List CreditTransaction)
    (cs : List Creditor) (t : CreditTransaction) :
    reverseTxnStep (ts.foldl applyTxnForward cs) t
      = ts.foldl applyTxnForward (reverseTxnStep cs t) := by
  induction ts generalizing cs with
  | nil => rfl
  | cons s ts ih =>
    rw [List.foldl_cons, List.foldl_cons, ih, reverse_forward_comm]

theorem reverse_undoes_forward (ts : List CreditTransaction)
    (cs : List Creditor) :
    ts.foldl reverseTxnStep (ts.foldl applyTxnForward cs) = cs := by
  induction ts generalizing cs with
  | nil => rfl
  | cons s ts ih =>
    rw [List.foldl_cons, List.foldl_cons, reverse_foldl_forward_comm,
      reverse_cancels_forward]
    exact ih cs

theorem filter_append_sep {α : Type} (p : α → Bool) (l1 l2 : List α)
    (h1 : ∀ x ∈ l1, p x = false) (h2 : ∀ x ∈ l2, p x = true) :
    (l1 ++ l2).filter p = l2 := by
  rw [List.filter_append,
    List.filter_eq_nil_iff.mpr (fun x hx => by rw [h1 x hx]; simp),
    List.filter_eq_self.mpr h2, List.nil_append]

theorem filter_not_append_sep {α : Type} (p : α → Bool) (l1 l2 : List α)
    (h1 : ∀ x ∈ l1, p x = false) (h2 : ∀ x ∈ l2, p x = true) :
    (l1 ++ l2).filter (fun x => !(p x)) = l1 := by
  rw [List.filter_append,
    List.filter_eq_self.mpr (fun x hx => by rw [h1 x hx]; rfl),
    List.filter_eq_nil_iff.mpr (fun x hx => by rw [h2 x hx]; simp),
    List.append_nil]

theorem available_stock_congr (db db' : DB)
    (h : db.movements = db'.movements) (uids : List Nat) (branch pid : Nat) :
    available_stock db uids branch pid = available_stock db' uids branch pid := by
  unfold available_stock DB.productMovements
  rw [h]

theorem get_batch_balances_congr (db db' : DB)
    (h : db.movements = db'.movements) (uids : List Nat) (branch pid : Nat)
    (inc : Bool) :
    get_batch_balances db uids branch pid inc
      = get_batch_balances db' uids branch pid inc := by
  unfold get_batch_balances
  rw [h]

/-- C5: deleting a sale whose current state decomposes as the pre-sale state
`db0` plus the rows the sale created (its linked movements `saleMvts`, its
linked credit transactions `saleTxns` applied forward to the creditor table)
removes exactly those rows again: with linked movements present the movement
table returns to `db0.movements` (so every per-batch balance and the total
available stock regain their pre-sale values); with no linked movements a
single positive `"Sale Reversal"` movement of the sale's quantity is appended
instead; for a `credit`/`partial` sale the linked credit transactions are
deleted and the creditor table returns to `db0.creditors`; and the sale row
itself is gone. -/
theorem C5_full_reversal
    (sid uid : Nat) (uids : List Nat) (branch : Nat)
    (db0 db1 : DB) (sale : Sale)
    (saleMvts : List StockMovement) (saleTxns : List CreditTransaction)
    (hfind : db1.sales.find? (fun s =>
        s.id == sid && uids.contains s.user_id && s.branch_id == branch)
      = some sale)
    (hmv : db1.movements = db0.movements ++ saleMvts)
    (hlink : ∀ m ∈ saleMvts,
      (m.sale_id == some sid && m.branch_id == branch &&
        uids.contains m.user_id) = true)
    (hold : ∀ m ∈ db0.movements,
      (m.sale_id == some sid && m.branch_id == branch &&
        uids.contains m.user_id) = false)
    (hct : db1.credit_transactions = db0.credit_transactions ++ saleTxns)
    (htx : ∀ t ∈ saleTxns,
      (t.sale_id == some sid && uids.contains t.user_id &&
        t.branch_id == branch) = true)
    (holdtx : ∀ t ∈ db0.credit_transactions,
      (t.sale_id == some sid && uids.contains t.user_id &&
        t.branch_id == branch) = false)
    (hcred : db1.creditors = saleTxns.foldl applyTxnForward db0.creditors) :
    ∃ db', delete_sale sid uid uids branch db1 = .ok db' ∧
      (saleMvts ≠ [] →
        db'.movements = db0.movements ∧
        (∀ pid, available_stock db' uids branch pid
            = available_stock db0 uids branch pid) ∧
        (∀ pid inc, get_batch_balances db' uids branch pid inc
            = get_batch_balances db0 uids branch pid inc)) ∧
      (saleMvts = [] →
        db'.movements = db0.movements ++
          [{ user_id := uid, branch_id := branch,
             product_id := sale.product_id, change := sale.quantity,
             reason := "Sale Reversal", location := some "Main Store",
             created_at := db1.next_id }]) ∧
      (sale.payment_method = "credit" ∨ sale.payment_method = "partial" →
        db'.credit_transactions = db0.credit_transactions ∧
        db'.creditors = db0.creditors) ∧
      (∀ s ∈ db'.sales, (s.id == sid) = false) := by
  have hfilter : db1.movements.filter (fun m =>
      m.sale_id == some sid && m.branch_id == branch &&
        uids.contains m.user_id) = saleMvts := by
    rw [hmv]; exact filter_append_sep _ _ _ hold hlink
  have hfilterNot : db1.movements.filter (fun m =>
      !(m.sale_id == some sid && m.branch_id == branch &&
        uids.contains m.user_id)) = db0.movements := by
    rw [hmv]; exact filter_not_append_sep _ _ _ hold hlink
  have hfTx : db1.credit_transactions.filter (fun t =>
      t.sale_id == some sid && uids.contains t.user_id &&
        t.branch_id == branch) = saleTxns := by
    rw [hct]; exact filter_append_sep _ _ _ holdtx htx
  have hfTxNot : db1.credit_transactions.filter (fun t =>
      !(t.sale_id == some sid && uids.contains t.user_id &&
        t.branch_id == branch)) = db0.credit_transactions := by
    rw [hct]; exact filter_not_append_sep _ _ _ holdtx htx
  have hsid : sale.id = sid := by
    have hp := List.find?_some hfind
    simp only [Bool.and_eq_true, beq_iff_eq] at hp
    exact hp.1.1
  unfold delete_sale
  rw [hfind]
  dsimp only
  rw [hfilter]
  rcases saleMvts with _ | ⟨m0, ms0⟩
  · rw [List.append_nil] at hmv
    simp only [List.isEmpty_nil, if_true]
    rw [hfTx, hfTxNot, hcred, reverse_undoes_forward]
    by_cases hpm : (sale.payment_method == "credit" ||
        sale.payment_method == "partial") = true
    · rw [if_pos hpm]
      refine ⟨_, rfl, ?_, ?_, ?_, ?_⟩
      · intro h; exact absurd rfl h
      · intro _
        show db1.movements ++ _ = _
        rw [hmv]
      · intro _; exact ⟨rfl, rfl⟩
      · intro s hs
        simp only [List.mem_filter] at hs
        have h2 := hs.2
        rw [hsid] at h2
        simpa using h2
    · rw [if_neg hpm]
      refine ⟨_, rfl, ?_, ?_, ?_, ?_⟩
      · intro h; exact absurd rfl h
      · intro _
        show db1.movements ++ _ = _
        rw [hmv]
      · intro hdisj
        exfalso
        rcases hdisj with h | h <;> rw [h] at hpm <;> exact hpm (by decide)
      · intro s hs
        simp only [List.mem_filter] at hs
        have h2 := hs.2
        rw [hsid] at h2
        simpa using h2
  · simp only [List.isEmpty_cons, Bool.false_eq_true, if_false]
    rw [hfilterNot, hfTx, hfTxNot, hcred, reverse_undoes_forward]
    by_cases hpm : (sale.payment_method == "credit" ||
        sale.payment_method == "partial") = true
    · rw [if_pos hpm]
      refine ⟨_, rfl, ?_, ?_, ?_, ?_⟩
      · intro _
        exact ⟨rfl, fun pid => available_stock_congr _ db0 rfl uids branch pid,
          fun pid inc => get_batch_balances_congr _ db0 rfl uids branch pid inc⟩
      · intro h; exact absurd h (by simp)
      · intro _; exact ⟨rfl, rfl⟩
      · intro s hs
        simp only [List.mem_filter] at hs
        have h2 := hs.2
        rw [hsid] at h2
        simpa using h2
    · rw [if_neg hpm]
      refine ⟨_, rfl, ?_, ?_, ?_, ?_⟩
      · intro _
        exact ⟨rfl, fun pid => available_stock_congr _ db0 rfl uids branch pid,
          fun pid inc => get_batch_balances_congr _ db0 rfl uids branch pid inc⟩
      · intro h; exact absurd h (by simp)
      · intro hdisj
        exfalso
        rcases hdisj with h | h <;> rw [h] at hpm <;> exact hpm (by decide)
      · intro s hs
        simp only [List.mem_filter] at hs
        have h2 := hs.2
        rw [hsid] at h2
        simpa using h2

/-- Witness for C5: deleting credit sale 10 from `dbDel1` removes its
movement (restoring batch balances and stock to `dbDel0`), deletes the debt
transaction, and returns creditor `Ama` to balance 0. -/
theorem C5_witness :
    (dbDel1.sales.find? (fun s =>
        s.id == 10 && [1].contains s.user_id && s.branch_id == 1)
      = some saleDel) ∧
    (dbDel1.movements = dbDel0.movements ++ [mvDel]) ∧
    (∀ m ∈ [mvDel],
      (m.sale_id == some 10 && m.branch_id == 1 &&
        [1].contains m.user_id) = true) ∧
    (∀ m ∈ dbDel0.movements,
      (m.sale_id == some 10 && m.branch_id == 1 &&
        [1].contains m.user_id) = false) ∧
    (dbDel1.credit_transactions = dbDel0.credit_transactions ++ [txDel]) ∧
    (∀ t ∈ [txDel],
      (t.sale_id == some 10 && [1].contains t.user_id &&
        t.branch_id == 1) = true) ∧
    (∀ t ∈ dbDel0.credit_transactions,
      (t.sale_id == some 10 && [1].contains t.user_id &&
        t.branch_id == 1) = false) ∧
    (dbDel1.creditors = [txDel].foldl applyTxnForward dbDel0.creditors) ∧
    (∃ db', delete_sale 10 1 [1] 1 dbDel1 = .ok db' ∧
      ([mvDel] ≠ [] →
        db'.movements = dbDel0.movements ∧
        (∀ pid, available_stock db' [1] 1 pid
            = available_stock dbDel0 [1] 1 pid) ∧
        (∀ pid inc, get_batch_balances db' [1] 1 pid inc
            = get_batch_balances dbDel0 [1] 1 pid inc)) ∧
      (([mvDel] : List StockMovement) = [] →
        db'.movements = dbDel0.movements ++
          [{ user_id := 1, branch_id := 1,
             product_id := saleDel.product_id, change := saleDel.quantity,
             reason := "Sale Reversal", location := some "Main Store",
             created_at := dbDel1.next_id }]) ∧
      (saleDel.payment_method = "credit" ∨
          saleDel.payment_method = "partial" →
        db'.credit_transactions = dbDel0.credit_transactions ∧
        db'.creditors = dbDel0.creditors) ∧
      (∀ s ∈ db'.sales, (s.id == 10) = false)) :=
  ⟨by with_unfolding_all rfl, by with_unfolding_all rfl,
   by with_unfolding_all decide, by with_unfolding_all decide,
   by with_unfolding_all rfl, by with_unfolding_all decide,
   by with_unfolding_all decide, by with_unfolding_all decide,
   C5_full_reversal 10 1 [1] 1 dbDel0 dbDel1 saleDel [mvDel] [txDel]
     (by with_unfolding_all rfl) (by with_unfolding_all rfl)
     (by with_unfolding_all decide) (by with_unfolding_all decide)
     (by with_unfolding_all rfl) (by with_unfolding_all decide)
     (by with_unfolding_all decide) (by with_unfolding_all decide)⟩

end GelInvent
